import Mathlib

/-
Verification of the simulation core of the "when-pigs-fly" browser game.

The JavaScript sources are shallowly embedded over the real numbers:
`THREE.Vector3` becomes `Vec3`, `THREE.Euler` (order XYZ) becomes `Euler`,
`Math.random()` draws are passed in explicitly as oracle records, and
`performance.now() / 1000` is passed in as a `now : Real` parameter.
Floating point is modelled by exact reals.  Render-side handles (meshes)
are kept only where gameplay code reads or writes them: positions are
mirrored into `meshPosition` fields and the damage colour flash into a
`materialsWhite` flag; purely decorative geometry is out of scope, as in
the specification.

Two implementation variants live in the repository.  The current variant
(src/src/components/EnemyPlane.js, Player.js) is embedded in namespace
`WPF`; the superseded variant whose Game class drives the tick loop
(src/backup/src/components/EnemyPlane.js) is embedded in namespace `WPFB`.
-/

namespace WPF

/-- Model of `THREE.Vector3`: three real coordinates. -/
structure Vec3 where
  x : ℝ
  y : ℝ
  z : ℝ

/-- Componentwise vector addition (`Vector3.add`). -/
def addV (a b : Vec3) : Vec3 := ⟨a.x + b.x, a.y + b.y, a.z + b.z⟩

/-- Componentwise vector subtraction (`Vector3.subVectors`). -/
def subV (a b : Vec3) : Vec3 := ⟨a.x - b.x, a.y - b.y, a.z - b.z⟩

/-- Scalar multiple (`Vector3.multiplyScalar`). -/
def smulV (c : ℝ) (a : Vec3) : Vec3 := ⟨c * a.x, c * a.y, c * a.z⟩

/-- Dot product (`Vector3.dot`). -/
def dotV (a b : Vec3) : ℝ := a.x * b.x + a.y * b.y + a.z * b.z

/-- Cross product (`Vector3.crossVectors`). -/
def crossV (a b : Vec3) : Vec3 :=
  ⟨a.y * b.z - a.z * b.y, a.z * b.x - a.x * b.z, a.x * b.y - a.y * b.x⟩

/-- Squared length of a vector (`Vector3.lengthSq`). -/
def sqLen (a : Vec3) : ℝ := a.x ^ 2 + a.y ^ 2 + a.z ^ 2

/-- Length of a vector (`Vector3.length`). -/
noncomputable def lenV (a : Vec3) : ℝ := Real.sqrt (sqLen a)

/-- Horizontal (XZ-plane) distance of a point from the world centre,
mirroring `Math.sqrt(x*x + z*z)` as used throughout the sources. -/
noncomputable def horizDist (a : Vec3) : ℝ := Real.sqrt (a.x ^ 2 + a.z ^ 2)

/-- Model of `THREE.Vector3.normalize`, which divides by `length() || 1`:
a zero-length vector is returned unchanged. -/
noncomputable def normalizeV (a : Vec3) : Vec3 :=
  if lenV a = 0 then a else smulV (1 / lenV a) a

/-- Linear interpolation (`THREE.Vector3.lerp`): each component moves the
fraction `t` of the way toward the target. -/
def lerpV (a b : Vec3) (t : ℝ) : Vec3 :=
  ⟨a.x + (b.x - a.x) * t, a.y + (b.y - a.y) * t, a.z + (b.z - a.z) * t⟩

/-- Scalar linear interpolation (`THREE.MathUtils.lerp`). -/
def lerpS (a b t : ℝ) : ℝ := a + (b - a) * t

/-- Model of `THREE.Euler` with the default rotation order XYZ. -/
structure Euler where
  x : ℝ
  y : ℝ
  z : ℝ

/-- Rotation about the X axis. -/
noncomputable def rotX (a : ℝ) (v : Vec3) : Vec3 :=
  ⟨v.x, Real.cos a * v.y - Real.sin a * v.z, Real.sin a * v.y + Real.cos a * v.z⟩

/-- Rotation about the Y axis. -/
noncomputable def rotY (a : ℝ) (v : Vec3) : Vec3 :=
  ⟨Real.cos a * v.x + Real.sin a * v.z, v.y, -Real.sin a * v.x + Real.cos a * v.z⟩

/-- Rotation about the Z axis. -/
noncomputable def rotZ (a : ℝ) (v : Vec3) : Vec3 :=
  ⟨Real.cos a * v.x - Real.sin a * v.y, Real.sin a * v.x + Real.cos a * v.y, v.z⟩

/-- Model of `THREE.Vector3.applyEuler` for order XYZ: three.js builds the
rotation matrix Rx(x)·Ry(y)·Rz(z) (see `Matrix4.makeRotationFromEuler`). -/
noncomputable def applyEuler (e : Euler) (v : Vec3) : Vec3 :=
  rotX e.x (rotY e.y (rotZ e.z v))

/-- Rodrigues rotation of `v` about the unit axis `k` by angle `t`,
modelling `THREE.Vector3.applyAxisAngle` (three.js routes this through an
equivalent quaternion). -/
noncomputable def applyAxisAngle (k : Vec3) (t : ℝ) (v : Vec3) : Vec3 :=
  addV (addV (smulV (Real.cos t) v) (smulV (Real.sin t) (crossV k v)))
    (smulV (dotV k v * (1 - Real.cos t)) k)

/-- Model of `Math.sign`. -/
noncomputable def mathSign (x : ℝ) : ℝ := if x > 0 then 1 else if x < 0 then -1 else 0

/-- Model of `Math.atan2 y x` as the argument of the complex number
`x + y·i`, which agrees with the IEEE atan2 on non-NaN inputs. -/
noncomputable def atan2 (y x : ℝ) : ℝ := Complex.arg ⟨x, y⟩

/-- Truncation toward zero, as used by the JavaScript `%` operator. -/
noncomputable def jsTrunc (x : ℝ) : ℤ := if 0 ≤ x then ⌊x⌋ else ⌈x⌉

/-- Model of the JavaScript remainder operator `a % b` for `b > 0`: the
result has the sign of the dividend `a`, unlike a mathematical modulus. -/
noncomputable def jsRem (a b : ℝ) : ℝ := a - b * jsTrunc (a / b)

theorem sqLen_rotX (a : ℝ) (v : Vec3) : sqLen (rotX a v) = sqLen v := by
  simp only [sqLen, rotX]
  have h := Real.sin_sq_add_cos_sq a
  ring_nf
  nlinarith [h]

theorem sqLen_rotY (a : ℝ) (v : Vec3) : sqLen (rotY a v) = sqLen v := by
  simp only [sqLen, rotY]
  have h := Real.sin_sq_add_cos_sq a
  ring_nf
  nlinarith [h]

theorem sqLen_rotZ (a : ℝ) (v : Vec3) : sqLen (rotZ a v) = sqLen v := by
  simp only [sqLen, rotZ]
  have h := Real.sin_sq_add_cos_sq a
  ring_nf
  nlinarith [h]

theorem sqLen_applyEuler (e : Euler) (v : Vec3) : sqLen (applyEuler e v) = sqLen v := by
  simp only [applyEuler, sqLen_rotX, sqLen_rotY, sqLen_rotZ]

theorem sqLen_nonneg (v : Vec3) : 0 ≤ sqLen v := by
  simp only [sqLen]; positivity

theorem lenV_applyEuler (e : Euler) (v : Vec3) : lenV (applyEuler e v) = lenV v := by
  simp only [lenV, sqLen_applyEuler]

theorem lenV_smulV (c : ℝ) (v : Vec3) : lenV (smulV c v) = |c| * lenV v := by
  simp only [lenV, smulV, sqLen]
  rw [show (c * v.x) ^ 2 + (c * v.y) ^ 2 + (c * v.z) ^ 2
      = c ^ 2 * (v.x ^ 2 + v.y ^ 2 + v.z ^ 2) by ring]
  rw [Real.sqrt_mul (by positivity), Real.sqrt_sq_eq_abs]

theorem lenV_nonneg (v : Vec3) : 0 ≤ lenV v := Real.sqrt_nonneg _

/-- For `b > 0` the JavaScript remainder lies strictly between `-b` and `b`. -/
theorem jsRem_mem (a b : ℝ) (hb : 0 < b) : jsRem a b ∈ Set.Ioo (-b) b := by
  simp only [jsRem, jsTrunc]
  split_ifs with h
  · have h1 : (⌊a / b⌋ : ℝ) * b ≤ a := (le_div_iff hb).mp (Int.floor_le _)
    have h2 : a < ((⌊a / b⌋ : ℝ) + 1) * b := by
      rw [← div_lt_iff hb]
      have := Int.sub_one_lt_floor (a / b)
      linarith
    constructor
    · nlinarith
    · nlinarith
  · have h1 : a ≤ (⌈a / b⌉ : ℝ) * b := (div_le_iff hb).mp (Int.le_ceil _)
    have h2 : ((⌈a / b⌉ : ℝ) - 1) * b < a := by
      rw [← lt_div_iff hb]
      have := Int.ceil_lt_add_one (a / b)
      linarith
    constructor
    · nlinarith
    · nlinarith

/-- For a non-negative dividend the JavaScript remainder lies in `[0, b)`. -/
theorem jsRem_mem_of_nonneg (a b : ℝ) (hb : 0 < b) (ha : 0 ≤ a) :
    jsRem a b ∈ Set.Ico 0 b := by
  simp only [jsRem, jsTrunc, if_pos (div_nonneg ha hb.le)]
  have h1 : (⌊a / b⌋ : ℝ) * b ≤ a := (le_div_iff hb).mp (Int.floor_le _)
  have h2 : a < ((⌊a / b⌋ : ℝ) + 1) * b := by
    rw [← div_lt_iff hb]
    have := Int.sub_one_lt_floor (a / b)
    linarith
  constructor
  · nlinarith
  · nlinarith

end WPF

namespace WPF

/-
Embedding of the current enemy variant, src/src/components/EnemyPlane.js.
Randomness drawn with `Math.random()` is supplied through oracle records;
`performance.now() / 1000` is the `now` field of the update oracle.
-/

/-- Behaviour states returned by `getRandomBehaviorState`. -/
inductive BehaviorState where
  | patrol
  | aggressive
  | evasive
  | diving
  | formation
  deriving DecidableEq

/-- State of one enemy plane (constructor fields of `EnemyPlane` that the
simulation reads or writes; mesh pose is mirrored in `meshPosition`,
`meshRotation` and `propellerAngle`, and the damage flash that sets all
sub-mesh materials to white in `materialsWhite`).  `diveTarget` is `null`
in the constructor but is always assigned by `startDivingAttack` before a
dive runs, so it is modelled as a plain vector. -/
structure EnemyPlane where
  position : Vec3
  velocity : Vec3
  rotation : Euler
  health : ℝ
  speed : ℝ
  turnRate : ℝ
  changeDirectionTime : ℝ
  lastDirectionChange : ℝ
  targetDirection : Vec3
  minAltitude : ℝ
  maxAltitude : ℝ
  altitudeWarningThreshold : ℝ
  boundaryDetectionRadius : ℝ
  nearBoundary : Bool
  returningToCenter : Bool
  targetingPlayer : Bool
  targetingTime : ℝ
  maxTargetingTime : ℝ
  behaviorState : BehaviorState
  behaviorTimer : ℝ
  behaviorDuration : ℝ
  isEvading : Bool
  evasionDirection : ℝ
  evasionTimer : ℝ
  evasionDuration : ℝ
  isDiving : Bool
  diveTimer : ℝ
  diveDuration : ℝ
  diveTarget : Vec3
  postDiveClimb : Bool
  isRolling : Bool
  rollTimer : ℝ
  rollDuration : ℝ
  rollProgress : ℝ
  currentSpeed : ℝ
  targetSpeed : ℝ
  speedChangeRate : ℝ
  currentTurnRate : ℝ
  maxTurnRate : ℝ
  turnAcceleration : ℝ
  meshPosition : Vec3
  meshRotation : Euler
  propellerAngle : ℝ
  materialsWhite : Bool

/-- Random draws used by `startEvasiveManeuvers`. -/
structure EvadeOracle where
  durRand : ℝ
  dirRand : ℝ

/-- Random draws used by `startDivingAttack`. -/
structure DiveOracle where
  durRand : ℝ
  offX : ℝ
  offZ : ℝ

/-- Random draws used by the end-of-update special-maneuver selection. -/
structure ManeuverOracle where
  startRand : ℝ
  typeRand : ℝ
  evade : EvadeOracle
  dive : DiveOracle

/-- Random draws used by `updateRandomDirection`. -/
structure DirOracle where
  r1 : ℝ
  r2 : ℝ
  r3 : ℝ

/-- Wall clock and random draws consumed by one `EnemyPlane.update` call. -/
structure UpdateOracle where
  now : ℝ
  cdtRand : ℝ
  dir : DirOracle
  man : ManeuverOracle

/-- Random draws used by `EnemyPlane.damage`. -/
structure DamageOracle where
  evadeRand : ℝ
  evade : EvadeOracle

/-- `EnemyPlane.startEvasiveManeuvers`. -/
noncomputable def startEvasiveManeuvers (o : EvadeOracle) (p : EnemyPlane) : EnemyPlane :=
  { p with isEvading := true, evasionTimer := 0,
           evasionDuration := 1 + o.durRand * 2,
           evasionDirection := if o.dirRand < 0.5 then 1 else -1 }

/-- `EnemyPlane.startDivingAttack`.  `playerPos` is `game.player.position`
(`none` when the game has no player). -/
noncomputable def startDivingAttack (playerPos : Option Vec3) (o : DiveOracle)
    (p : EnemyPlane) : EnemyPlane :=
  match playerPos with
  | none => p
  | some pp =>
    if p.position.y < 30 then p
    else if pp.y > p.maxAltitude then p
    else
      let t0 : Vec3 := ⟨pp.x + (o.offX - 0.5) * 20, pp.y, pp.z + (o.offZ - 0.5) * 20⟩
      let t1 := if t0.y > p.maxAltitude - 10 then { t0 with y := p.maxAltitude - 10 } else t0
      { p with isDiving := true, diveTimer := 0, diveDuration := 2 + o.durRand,
               diveTarget := t1 }

/-- `EnemyPlane.startBarrelRoll`. -/
def startBarrelRoll (p : EnemyPlane) : EnemyPlane :=
  { p with isRolling := true, rollTimer := 0, rollDuration := 1.5, rollProgress := 0 }

/-- `EnemyPlane.startSpecialManeuver`: 40% diving attack (when a player
exists), 30% evasive, 30% barrel roll. -/
noncomputable def startSpecialManeuver (playerPos : Option Vec3) (o : ManeuverOracle)
    (p : EnemyPlane) : EnemyPlane :=
  if o.typeRand < 0.4 ∧ playerPos.isSome then startDivingAttack playerPos o.dive p
  else if o.typeRand < 0.7 then startEvasiveManeuvers o.evade p
  else startBarrelRoll p

/-- `EnemyPlane.handleEvasiveManeuvers`. -/
noncomputable def handleEvasiveManeuvers (delta : ℝ) (p : EnemyPlane) : EnemyPlane :=
  let p0 := { p with evasionTimer := p.evasionTimer + delta }
  if p0.evasionTimer > p0.evasionDuration then { p0 with isEvading := false }
  else
    let cur := applyEuler p0.rotation ⟨0, 0, 1⟩
    let side := normalizeV (crossV cur ⟨0, 1, 0⟩)
    let osc := Real.sin (p0.evasionTimer * 3) * p0.evasionDirection * 0.7
    let td0 := addV cur (smulV (osc * 0.6) side)
    let td1 : Vec3 := ⟨td0.x, td0.y + Real.sin (p0.evasionTimer * 2) * 0.15, td0.z⟩
    { p0 with targetDirection := normalizeV td1 }

/-- `EnemyPlane.handleDivingAttack`.  The `setTimeout` that clears
`postDiveClimb` three seconds later is a wall-clock callback outside the
tick; `postDiveClimb` is never read back by the simulation. -/
noncomputable def handleDivingAttack (delta : ℝ) (p : EnemyPlane) : EnemyPlane :=
  let p0 := { p with diveTimer := p.diveTimer + delta }
  if p0.position.y > p0.altitudeWarningThreshold then
    { p0 with isDiving := false, targetDirection := { p0.targetDirection with y := -0.3 } }
  else if p0.diveTimer > p0.diveDuration then
    { p0 with isDiving := false, postDiveClimb := true,
              targetDirection := normalizeV
                ⟨p0.targetDirection.x, 0.2, p0.targetDirection.z⟩ }
  else
    let toT := normalizeV (subV p0.diveTarget p0.position)
    let prog := p0.diveTimer / p0.diveDuration
    let ang := -0.2 - prog * 0.3
    { p0 with targetDirection := normalizeV ⟨toT.x, ang, toT.z⟩ }

/-- `EnemyPlane.handleBarrelRoll`. -/
noncomputable def handleBarrelRoll (delta : ℝ) (p : EnemyPlane) : EnemyPlane :=
  let p0 := { p with rollTimer := p.rollTimer + delta }
  if p0.rollTimer > p0.rollDuration then
    { p0 with isRolling := false, rotation := { p0.rotation with z := 0 } }
  else
    let prog := p0.rollTimer / p0.rollDuration
    { p0 with rollProgress := prog,
              rotation := { p0.rotation with
                z := Real.sin (prog * Real.pi * 2) * Real.pi } }

/-- `EnemyPlane.updateRandomDirection`. -/
noncomputable def updateRandomDirection (o : DirOracle) (p : EnemyPlane) : EnemyPlane :=
  let nd := normalizeV ⟨o.r1 - 0.5, (o.r2 - 0.5) * 0.1, o.r3 - 0.5⟩
  if p.position.y < p.minAltitude + 5 then
    { p with targetDirection := { nd with y := |nd.y| * 0.5 } }
  else if p.position.y > p.altitudeWarningThreshold then
    let ratio := (p.position.y - p.altitudeWarningThreshold) /
                 (p.maxAltitude - p.altitudeWarningThreshold)
    let df := 0.5 + ratio * 0.5
    { p with targetDirection := { nd with y := -|nd.y| * df } }
  else { p with targetDirection := nd }

/-- Boundary block of `EnemyPlane.update` (lines 159-195): an enemy whose
horizontal distance exceeds `worldRadius` is wrapped to 20% of the radius
on the opposite angular side, its `targetDirection` horizontal components
are negated (then renormalised) and all special-maneuver flags reset. -/
noncomputable def wrapBoundary (worldRadius : ℝ) (p : EnemyPlane) : EnemyPlane :=
  if horizDist p.position > worldRadius then
    let angle := atan2 p.position.z p.position.x
    let newRadius := worldRadius * 0.2
    let pos : Vec3 := ⟨-(Real.cos angle) * newRadius, p.position.y,
                       -(Real.sin angle) * newRadius⟩
    let td := normalizeV ⟨-p.targetDirection.x, p.targetDirection.y, -p.targetDirection.z⟩
    { p with position := pos, targetDirection := td,
             returningToCenter := false, isEvading := false, isDiving := false,
             isRolling := false, meshPosition := pos }
  else p

/-- Periodic re-targeting block of `EnemyPlane.update` (lines 197-205):
when `changeDirectionTime` has elapsed, a fresh timer (2-5 s) is drawn and
`updateRandomDirection` recomputes the target direction. -/
noncomputable def dirTimerStep (o : UpdateOracle) (p : EnemyPlane) : EnemyPlane :=
  if o.now - p.lastDirectionChange > p.changeDirectionTime then
    updateRandomDirection o.dir
      { p with lastDirectionChange := o.now, changeDirectionTime := 2 + o.cdtRand * 3 }
  else p

/-- Special-maneuver dispatch of `EnemyPlane.update` (lines 207-214). -/
noncomputable def maneuverStep (delta : ℝ) (p : EnemyPlane) : EnemyPlane :=
  if p.isEvading then handleEvasiveManeuvers delta p
  else if p.isDiving then handleDivingAttack delta p
  else if p.isRolling then handleBarrelRoll delta p
  else p

/-- Orientation block of `EnemyPlane.update` (lines 216-257); also returns
the recomputed current direction (line 244) that the movement block uses. -/
noncomputable def rotationStep (delta : ℝ) (p : EnemyPlane) : EnemyPlane × Vec3 :=
  let cur := applyEuler p.rotation ⟨0, 0, 1⟩
  let turnAmount := p.turnRate * delta
  let p1 :=
    if ¬ p.isRolling then
      if dotV cur p.targetDirection < 0.99 then
        let cr := crossV cur p.targetDirection
        let turnDirection := mathSign cr.y
        let pitchDiff := Real.arcsin p.targetDirection.y - Real.arcsin cur.y
        { p with rotation := ⟨p.rotation.x + pitchDiff * turnAmount * 0.7,
                              p.rotation.y + turnDirection * turnAmount,
                              p.rotation.z⟩ }
      else p
    else p
  let cur2 := applyEuler p1.rotation ⟨0, 0, 1⟩
  let turnIntensity := (crossV cur2 p1.targetDirection).y
  let p2 :=
    if ¬ p1.isRolling then
      { p1 with rotation := { p1.rotation with
          z := p1.rotation.z * 0.9 + (-turnIntensity * 0.6) * 0.1 } }
    else p1
  (p2, cur2)

/-- Speed-inertia block of `EnemyPlane.update` (lines 259-276): the target
speed is the base speed scaled per behaviour, and `currentSpeed` moves
toward it at `speedChangeRate` without overshoot. -/
noncomputable def speedStep (delta : ℝ) (p : EnemyPlane) : EnemyPlane :=
  let target :=
    if p.behaviorState = BehaviorState.aggressive then p.speed * 1.2
    else if p.behaviorState = BehaviorState.diving ∧ p.isDiving then p.speed * 1.3
    else if p.behaviorState = BehaviorState.evasive ∧ p.isEvading then p.speed * 1.1
    else if p.behaviorState = BehaviorState.patrol then p.speed * 0.9
    else p.speed
  let cs :=
    if p.currentSpeed < target then min target (p.currentSpeed + p.speedChangeRate * delta)
    else if p.currentSpeed > target then max target (p.currentSpeed - p.speedChangeRate * delta)
    else p.currentSpeed
  { p with currentSpeed := cs }

/-- Movement block of `EnemyPlane.update` (lines 278-285): velocity is the
current direction scaled by `currentSpeed`, integrated over `delta`. -/
def moveStep (delta : ℝ) (dir : Vec3) (p : EnemyPlane) : EnemyPlane :=
  let v : Vec3 := ⟨dir.x * p.currentSpeed, dir.y * p.currentSpeed, dir.z * p.currentSpeed⟩
  { p with velocity := v,
           position := ⟨p.position.x + v.x * delta, p.position.y + v.y * delta,
                        p.position.z + v.z * delta⟩ }

/-- Altitude blocks of `EnemyPlane.update` (lines 287-308): hard minimum
clamp (skipped while diving), hard maximum clamp, and the soft downward
bias applied above the warning threshold. -/
noncomputable def altitudeClampStep (p : EnemyPlane) : EnemyPlane :=
  let p1 :=
    if p.position.y < p.minAltitude ∧ ¬ p.isDiving then
      { p with position := { p.position with y := p.minAltitude },
               targetDirection := { p.targetDirection with
                 y := |p.targetDirection.y| * 0.5 } }
    else p
  let p2 :=
    if p1.position.y > p1.maxAltitude then
      { p1 with position := { p1.position with y := p1.maxAltitude },
                targetDirection := { p1.targetDirection with
                  y := -|p1.targetDirection.y| * 0.5 } }
    else p1
  if p2.position.y > p2.altitudeWarningThreshold ∧ ¬ p2.isDiving then
    let ratio := (p2.position.y - p2.altitudeWarningThreshold) /
                 (p2.maxAltitude - p2.altitudeWarningThreshold)
    let downwardForce := -0.2 - ratio * 0.3
    { p2 with targetDirection := { p2.targetDirection with
        y := min p2.targetDirection.y downwardForce } }
  else p2

/-- Mesh-sync block of `EnemyPlane.update` (lines 310-317). -/
def meshStep (delta : ℝ) (p : EnemyPlane) : EnemyPlane :=
  { p with meshPosition := p.position, meshRotation := p.rotation,
           propellerAngle := p.propellerAngle + delta * 15 }

/-- Final block of `EnemyPlane.update` (lines 319-322): with probability
0.01 per frame, and only when no maneuver is active, start a special
maneuver. -/
noncomputable def maneuverStartStep (playerPos : Option Vec3) (o : ManeuverOracle)
    (p : EnemyPlane) : EnemyPlane :=
  if ¬ p.isEvading ∧ ¬ p.isDiving ∧ ¬ p.isRolling ∧ o.startRand < 0.01 then
    startSpecialManeuver playerPos o p
  else p

/-- `EnemyPlane.update` of the current variant, as the composition of its
source blocks in program order. -/
noncomputable def update (worldRadius : ℝ) (playerPos : Option Vec3)
    (o : UpdateOracle) (delta : ℝ) (p : EnemyPlane) : EnemyPlane :=
  let p0 := wrapBoundary worldRadius p
  let p1 := dirTimerStep o p0
  let p2 := maneuverStep delta p1
  let pr := rotationStep delta p2
  let p4 := speedStep delta pr.1
  let p5 := moveStep delta pr.2 p4
  let p6 := altitudeClampStep p5
  let p7 := meshStep delta p6
  maneuverStartStep playerPos o.man p7

/-- `EnemyPlane.damage` of the current variant: subtract health; only when
the plane survives, flash the materials white (the 100&nbsp;ms revert is an
async timeout) and start evasive maneuvers with probability 0.7. -/
noncomputable def damage (o : DamageOracle) (amount : ℝ) (p : EnemyPlane) : EnemyPlane :=
  let p1 := { p with health := p.health - amount }
  if p1.health > 0 then
    let p2 := { p1 with materialsWhite := true }
    if o.evadeRand < 0.7 then startEvasiveManeuvers o.evade p2 else p2
  else p1

end WPF

namespace WPF

/-- At most one of the three special-maneuver flags is set. -/
def atMostOneManeuver (p : EnemyPlane) : Prop :=
  (p.isEvading && p.isDiving) = false ∧ (p.isEvading && p.isRolling) = false ∧
    (p.isDiving && p.isRolling) = false

theorem wrapBoundary_posy (R : ℝ) (p : EnemyPlane) :
    (wrapBoundary R p).position.y = p.position.y := by
  simp only [wrapBoundary]; split_ifs <;> rfl

theorem wrapBoundary_minAltitude (R : ℝ) (p : EnemyPlane) :
    (wrapBoundary R p).minAltitude = p.minAltitude := by
  simp only [wrapBoundary]; split_ifs <;> rfl

theorem wrapBoundary_maxAltitude (R : ℝ) (p : EnemyPlane) :
    (wrapBoundary R p).maxAltitude = p.maxAltitude := by
  simp only [wrapBoundary]; split_ifs <;> rfl

theorem wrapBoundary_speed (R : ℝ) (p : EnemyPlane) :
    (wrapBoundary R p).speed = p.speed := by
  simp only [wrapBoundary]; split_ifs <;> rfl

theorem wrapBoundary_currentSpeed (R : ℝ) (p : EnemyPlane) :
    (wrapBoundary R p).currentSpeed = p.currentSpeed := by
  simp only [wrapBoundary]; split_ifs <;> rfl

theorem wrapBoundary_speedChangeRate (R : ℝ) (p : EnemyPlane) :
    (wrapBoundary R p).speedChangeRate = p.speedChangeRate := by
  simp only [wrapBoundary]; split_ifs <;> rfl

theorem wrapBoundary_atMostOne (R : ℝ) (p : EnemyPlane)
    (h : atMostOneManeuver p) : atMostOneManeuver (wrapBoundary R p) := by
  simp only [wrapBoundary]
  split_ifs
  · simp [atMostOneManeuver]
  · exact h

theorem updateRandomDirection_eq (o : DirOracle) (p : EnemyPlane) :
    ∃ td, updateRandomDirection o p = { p with targetDirection := td } := by
  simp only [updateRandomDirection]
  split_ifs <;> exact ⟨_, rfl⟩

theorem dirTimerStep_eq (o : UpdateOracle) (p : EnemyPlane) :
    ∃ td cdt ldc, dirTimerStep o p =
      { p with targetDirection := td, changeDirectionTime := cdt,
               lastDirectionChange := ldc } := by
  simp only [dirTimerStep]
  split_ifs
  · obtain ⟨td, h⟩ := updateRandomDirection_eq o.dir
      { p with lastDirectionChange := o.now, changeDirectionTime := 2 + o.cdtRand * 3 }
    exact ⟨td, 2 + o.cdtRand * 3, o.now, h⟩
  · exact ⟨p.targetDirection, p.changeDirectionTime, p.lastDirectionChange, rfl⟩

theorem maneuverStep_eq (delta : ℝ) (p : EnemyPlane) :
    ∃ td et dt rt rp pdc rz e d r, maneuverStep delta p =
      { p with targetDirection := td, evasionTimer := et, diveTimer := dt,
               rollTimer := rt, rollProgress := rp, postDiveClimb := pdc,
               rotation := { p.rotation with z := rz },
               isEvading := e, isDiving := d, isRolling := r } ∧
      (e = true → p.isEvading = true) ∧ (d = true → p.isDiving = true) ∧
      (r = true → p.isRolling = true) := by
  simp only [maneuverStep, handleEvasiveManeuvers, handleDivingAttack, handleBarrelRoll]
  split_ifs <;>
    refine ⟨_, _, _, _, _, _, _, _, _, _, rfl, ?_, ?_, ?_⟩ <;> simp_all

theorem rotationStep_eq (delta : ℝ) (p : EnemyPlane) :
    ∃ rot, (rotationStep delta p).1 = { p with rotation := rot } := by
  simp only [rotationStep]
  split_ifs <;> exact ⟨_, rfl⟩

theorem rotationStep_dir_sqLen (delta : ℝ) (p : EnemyPlane) :
    sqLen (rotationStep delta p).2 = 1 := by
  simp only [rotationStep]
  split_ifs <;>
    · rw [sqLen_applyEuler]
      simp [sqLen]

theorem speedStep_eq (delta : ℝ) (p : EnemyPlane) :
    ∃ cs, speedStep delta p = { p with currentSpeed := cs } := ⟨_, rfl⟩

/-- The inertial speed update never overshoots: the new `currentSpeed` stays
between the old value and the behaviour-scaled target, which itself is at
most `1.3 ×` the base speed. -/
theorem speedStep_bound (delta : ℝ) (p : EnemyPlane)
    (hs : 0 ≤ p.speed) (hr : 0 ≤ p.speedChangeRate * delta) :
    |(speedStep delta p).currentSpeed| ≤ max |p.currentSpeed| (p.speed * 1.3) := by
  simp only [speedStep]
  set t :=
    if p.behaviorState = BehaviorState.aggressive then p.speed * 1.2
    else if p.behaviorState = BehaviorState.diving ∧ p.isDiving then p.speed * 1.3
    else if p.behaviorState = BehaviorState.evasive ∧ p.isEvading then p.speed * 1.1
    else if p.behaviorState = BehaviorState.patrol then p.speed * 0.9
    else p.speed with ht
  have htb : t ≤ p.speed * 1.3 := by
    rw [ht]; split_ifs <;> nlinarith
  have ht0 : 0 ≤ t := by
    rw [ht]; split_ifs <;> nlinarith
  split_ifs with h1 h2
  · have hle : min t (p.currentSpeed + p.speedChangeRate * delta) ≤ t := min_le_left _ _
    have hge : p.currentSpeed ≤ min t (p.currentSpeed + p.speedChangeRate * delta) :=
      le_min h1.le (by linarith)
    rw [abs_le]
    constructor
    · have := neg_abs_le p.currentSpeed
      have := le_max_left |p.currentSpeed| (p.speed * 1.3)
      linarith
    · have := le_max_right |p.currentSpeed| (p.speed * 1.3)
      linarith
  · have hge : t ≤ max t (p.currentSpeed - p.speedChangeRate * delta) := le_max_left _ _
    have hle : max t (p.currentSpeed - p.speedChangeRate * delta) ≤ p.currentSpeed :=
      max_le h2.le (by linarith)
    rw [abs_le]
    have h0 : (0 : ℝ) ≤ max |p.currentSpeed| (p.speed * 1.3) :=
      le_trans (abs_nonneg _) (le_max_left _ _)
    constructor
    · linarith
    · have h4 : p.currentSpeed ≤ |p.currentSpeed| := le_abs_self _
      have := le_max_left |p.currentSpeed| (p.speed * 1.3)
      linarith
  · have := le_max_left |p.currentSpeed| (p.speed * 1.3)
    linarith

theorem moveStep_velocity (delta : ℝ) (dir : Vec3) (p : EnemyPlane) :
    (moveStep delta dir p).velocity = smulV p.currentSpeed dir := by
  simp only [moveStep, smulV]
  congr 1 <;> ring

theorem moveStep_currentSpeed (delta : ℝ) (dir : Vec3) (p : EnemyPlane) :
    (moveStep delta dir p).currentSpeed = p.currentSpeed := rfl

theorem altitudeClampStep_eq (p : EnemyPlane) :
    ∃ py td, altitudeClampStep p =
      { p with position := { p.position with y := py }, targetDirection := td } := by
  simp only [altitudeClampStep]
  split_ifs <;> exact ⟨_, _, rfl⟩

/-- After the altitude blocks the altitude never exceeds `maxAltitude`, and
when the plane is not diving it is also at least `minAltitude` (given a
sane configuration `minAltitude ≤ maxAltitude`). -/
theorem altitudeClampStep_bounds (p : EnemyPlane)
    (hmm : p.minAltitude ≤ p.maxAltitude) :
    (altitudeClampStep p).position.y ≤ p.maxAltitude ∧
      (p.isDiving = false → p.minAltitude ≤ (altitudeClampStep p).position.y) := by
  simp only [altitudeClampStep]
  split_ifs <;> refine ⟨?_, fun hd => ?_⟩ <;> simp_all <;> try linarith

theorem meshStep_eq (delta : ℝ) (p : EnemyPlane) :
    meshStep delta p = { p with meshPosition := p.position, meshRotation := p.rotation,
                                propellerAngle := p.propellerAngle + delta * 15 } := rfl

theorem maneuverStartStep_position (pp : Option Vec3) (o : ManeuverOracle)
    (p : EnemyPlane) : (maneuverStartStep pp o p).position = p.position := by
  rcases pp with _ | pos <;>
    simp only [maneuverStartStep, startSpecialManeuver, startDivingAttack,
      startEvasiveManeuvers, startBarrelRoll] <;>
    split_ifs <;> rfl

theorem maneuverStartStep_velocity (pp : Option Vec3) (o : ManeuverOracle)
    (p : EnemyPlane) : (maneuverStartStep pp o p).velocity = p.velocity := by
  rcases pp with _ | pos <;>
    simp only [maneuverStartStep, startSpecialManeuver, startDivingAttack,
      startEvasiveManeuvers, startBarrelRoll] <;>
    split_ifs <;> rfl

theorem maneuverStartStep_minAltitude (pp : Option Vec3) (o : ManeuverOracle)
    (p : EnemyPlane) : (maneuverStartStep pp o p).minAltitude = p.minAltitude := by
  rcases pp with _ | pos <;>
    simp only [maneuverStartStep, startSpecialManeuver, startDivingAttack,
      startEvasiveManeuvers, startBarrelRoll] <;>
    split_ifs <;> rfl

theorem maneuverStartStep_maxAltitude (pp : Option Vec3) (o : ManeuverOracle)
    (p : EnemyPlane) : (maneuverStartStep pp o p).maxAltitude = p.maxAltitude := by
  rcases pp with _ | pos <;>
    simp only [maneuverStartStep, startSpecialManeuver, startDivingAttack,
      startEvasiveManeuvers, startBarrelRoll] <;>
    split_ifs <;> rfl

theorem maneuverStartStep_isDiving_mono (pp : Option Vec3) (o : ManeuverOracle)
    (p : EnemyPlane) (h : (maneuverStartStep pp o p).isDiving = false) :
    p.isDiving = false := by
  by_contra hc
  rw [Bool.not_eq_false] at hc
  rw [maneuverStartStep, if_neg (by simp [hc])] at h
  rw [hc] at h
  exact Bool.noConfusion h

theorem maneuverStartStep_atMostOne (pp : Option Vec3) (o : ManeuverOracle)
    (p : EnemyPlane) (h : atMostOneManeuver p) :
    atMostOneManeuver (maneuverStartStep pp o p) := by
  rcases pp with _ | pos <;>
    simp only [maneuverStartStep, startSpecialManeuver, startDivingAttack,
      startEvasiveManeuvers, startBarrelRoll] <;>
    split_ifs <;> simp_all [atMostOneManeuver]

end WPF

namespace WPF

theorem dirTimerStep_minAltitude (o : UpdateOracle) (p : EnemyPlane) :
    (dirTimerStep o p).minAltitude = p.minAltitude := by
  obtain ⟨a, b, c, h⟩ := dirTimerStep_eq o p
  rw [h]

theorem dirTimerStep_maxAltitude (o : UpdateOracle) (p : EnemyPlane) :
    (dirTimerStep o p).maxAltitude = p.maxAltitude := by
  obtain ⟨a, b, c, h⟩ := dirTimerStep_eq o p
  rw [h]

theorem maneuverStep_minAltitude (delta : ℝ) (p : EnemyPlane) :
    (maneuverStep delta p).minAltitude = p.minAltitude := by
  obtain ⟨a, b, c, d, e, f, g, h1, h2, h3, h, -⟩ := maneuverStep_eq delta p
  rw [h]

theorem maneuverStep_maxAltitude (delta : ℝ) (p : EnemyPlane) :
    (maneuverStep delta p).maxAltitude = p.maxAltitude := by
  obtain ⟨a, b, c, d, e, f, g, h1, h2, h3, h, -⟩ := maneuverStep_eq delta p
  rw [h]

theorem rotationStep_minAltitude (delta : ℝ) (p : EnemyPlane) :
    ((rotationStep delta p).1).minAltitude = p.minAltitude := by
  obtain ⟨rot, h⟩ := rotationStep_eq delta p
  rw [h]

theorem rotationStep_maxAltitude (delta : ℝ) (p : EnemyPlane) :
    ((rotationStep delta p).1).maxAltitude = p.maxAltitude := by
  obtain ⟨rot, h⟩ := rotationStep_eq delta p
  rw [h]

theorem altitudeClampStep_isDiving (p : EnemyPlane) :
    (altitudeClampStep p).isDiving = p.isDiving := by
  obtain ⟨a, b, h⟩ := altitudeClampStep_eq p
  rw [h]

/-- Concrete enemy-plane state with constructor-style parameter values
(patrol behaviour, no active maneuver), used as evaluation input. -/
noncomputable def samplePlane : EnemyPlane where
  position := ⟨0, 50, 0⟩
  velocity := ⟨0, 0, 0⟩
  rotation := ⟨0, 0, 0⟩
  health := 150
  speed := 10
  turnRate := 0.25
  changeDirectionTime := 5
  lastDirectionChange := 0
  targetDirection := ⟨0, 0, 1⟩
  minAltitude := 15
  maxAltitude := 120
  altitudeWarningThreshold := 110
  boundaryDetectionRadius := 591.5
  nearBoundary := false
  returningToCenter := false
  targetingPlayer := false
  targetingTime := 0
  maxTargetingTime := 7
  behaviorState := BehaviorState.patrol
  behaviorTimer := 0
  behaviorDuration := 5
  isEvading := false
  evasionDirection := 1
  evasionTimer := 0
  evasionDuration := 0
  isDiving := false
  diveTimer := 0
  diveDuration := 0
  diveTarget := ⟨0, 0, 0⟩
  postDiveClimb := false
  isRolling := false
  rollTimer := 0
  rollDuration := 0
  rollProgress := 0
  currentSpeed := 5
  targetSpeed := 10
  speedChangeRate := 0.5
  currentTurnRate := 0
  maxTurnRate := 0.25
  turnAcceleration := 0.1
  meshPosition := ⟨0, 50, 0⟩
  meshRotation := ⟨0, 0, 0⟩
  propellerAngle := 0
  materialsWhite := false

/-- Concrete evasive-maneuver random draws. -/
noncomputable def sampleEvadeOracle : EvadeOracle := ⟨0.5, 0.25⟩

/-- Concrete diving-attack random draws. -/
noncomputable def sampleDiveOracle : DiveOracle := ⟨0.5, 0.5, 0.5⟩

/-- Concrete maneuver-selection draws whose `startRand = 0.5` fails the
`< 0.01` start check. -/
noncomputable def sampleManOracle : ManeuverOracle := ⟨0.5, 0.9, sampleEvadeOracle, sampleDiveOracle⟩

/-- Concrete update oracle: wall clock 0, direction-change timer draws. -/
noncomputable def sampleUpdOracle : UpdateOracle := ⟨0, 0.5, ⟨0.5, 0.5, 0.5⟩, sampleManOracle⟩

/-- Concrete damage oracle whose `evadeRand = 0.5` passes the 70% evasive
reaction check. -/
noncomputable def sampleDmgOracle : DamageOracle := ⟨0.5, sampleEvadeOracle⟩

/-- Sample plane in the middle of a diving attack. -/
noncomputable def divingPlane : EnemyPlane :=
  { samplePlane with isDiving := true, diveDuration := 2, diveTarget := ⟨0, 46, 0⟩ }

/-- C10: a killing hit — `damage(a)` with `a ≥ health` — changes only the
health field: no colour flash, no evasive reaction, and every other field
(maneuver flags, targetDirection, rotation, mesh state) is untouched; the
damage method never removes the plane. -/
theorem c10_killing_damage_only_health (o : DamageOracle) (amount : ℝ)
    (p : EnemyPlane) (h : p.health ≤ amount) :
    damage o amount p = { p with health := p.health - amount } := by
  simp only [damage]
  split_ifs with h1 h2
  · exfalso
    have h3 : p.health - amount > 0 := h1
    linarith
  · exfalso
    have h3 : p.health - amount > 0 := h1
    linarith
  · rfl

/-- C10 witness: evaluating a killing hit on the sample plane. -/
theorem c10_killing_damage_only_health_witness :
    samplePlane.health ≤ 200 ∧
      damage sampleDmgOracle 200 samplePlane =
        { samplePlane with health := samplePlane.health - 200 } :=
  ⟨by norm_num [samplePlane],
   c10_killing_damage_only_health sampleDmgOracle 200 samplePlane
     (by norm_num [samplePlane])⟩

/-- C4 counterexample: a diving enemy that takes a surviving hit whose 70%
evasive-reaction roll succeeds ends up with `isEvading` and `isDiving`
both true — `startEvasiveManeuvers` does not clear the other maneuver
flags, refuting mutual exclusion. -/
theorem c4_counterexample :
    (damage sampleDmgOracle 25 divingPlane).isEvading = true ∧
      (damage sampleDmgOracle 25 divingPlane).isDiving = true := by
  norm_num [damage, startEvasiveManeuvers, divingPlane, samplePlane,
    sampleDmgOracle, sampleEvadeOracle]

theorem dirTimerStep_atMostOne (o : UpdateOracle) (p : EnemyPlane)
    (h : atMostOneManeuver p) : atMostOneManeuver (dirTimerStep o p) := by
  obtain ⟨a, b, c, he⟩ := dirTimerStep_eq o p
  rw [he]; exact h

theorem maneuverStep_atMostOne (delta : ℝ) (p : EnemyPlane)
    (h : atMostOneManeuver p) : atMostOneManeuver (maneuverStep delta p) := by
  obtain ⟨td, et, dt, rt, rp, pdc, rz, e, d, r, he, hev, hdv, hrl⟩ :=
    maneuverStep_eq delta p
  rw [he]
  unfold atMostOneManeuver at h ⊢
  cases e <;> cases d <;> cases r <;> simp_all

theorem rotationStep_atMostOne (delta : ℝ) (p : EnemyPlane)
    (h : atMostOneManeuver p) : atMostOneManeuver (rotationStep delta p).1 := by
  obtain ⟨rot, he⟩ := rotationStep_eq delta p
  rw [he]; exact h

theorem altitudeClampStep_atMostOne (p : EnemyPlane)
    (h : atMostOneManeuver p) : atMostOneManeuver (altitudeClampStep p) := by
  obtain ⟨a, b, he⟩ := altitudeClampStep_eq p
  rw [he]; exact h

/-- C4 (amended): `EnemyPlane.update` preserves mutual exclusion of the
special-maneuver flags — inside update a maneuver is only started when no
maneuver is active.  (The exclusion can still be broken from outside
update, because `startEvasiveManeuvers` — in particular the 70% evasive
reaction inside `damage` — does not clear `isDiving`/`isRolling`; see the
counterexample.) -/
theorem c4_update_preserves_exclusion (R : ℝ) (pp : Option Vec3)
    (o : UpdateOracle) (delta : ℝ) (p : EnemyPlane)
    (h : atMostOneManeuver p) : atMostOneManeuver (update R pp o delta p) := by
  simp only [update]
  apply maneuverStartStep_atMostOne
  apply altitudeClampStep_atMostOne
  apply rotationStep_atMostOne
  apply maneuverStep_atMostOne
  apply dirTimerStep_atMostOne
  exact wrapBoundary_atMostOne R p h

/-- C4 witness: the sample plane (no active maneuver) keeps the exclusion
property across one update. -/
theorem c4_update_preserves_exclusion_witness :
    atMostOneManeuver samplePlane ∧
      atMostOneManeuver (update 845 none sampleUpdOracle 0.016 samplePlane) :=
  ⟨by simp [atMostOneManeuver, samplePlane],
   c4_update_preserves_exclusion 845 none sampleUpdOracle 0.016 samplePlane
     (by simp [atMostOneManeuver, samplePlane])⟩

end WPF

namespace WPF

theorem maneuverStep_position (delta : ℝ) (p : EnemyPlane) :
    (maneuverStep delta p).position = p.position := by
  obtain ⟨a, b, c, d, e, f, g, h1, h2, h3, h, -⟩ := maneuverStep_eq delta p
  rw [h]

theorem maneuverStep_warn (delta : ℝ) (p : EnemyPlane) :
    (maneuverStep delta p).altitudeWarningThreshold = p.altitudeWarningThreshold := by
  obtain ⟨a, b, c, d, e, f, g, h1, h2, h3, h, -⟩ := maneuverStep_eq delta p
  rw [h]

theorem rotationStep_warn (delta : ℝ) (p : EnemyPlane) :
    ((rotationStep delta p).1).altitudeWarningThreshold = p.altitudeWarningThreshold := by
  obtain ⟨rot, h⟩ := rotationStep_eq delta p
  rw [h]

theorem altitudeClampStep_minAltitude (p : EnemyPlane) :
    (altitudeClampStep p).minAltitude = p.minAltitude := by
  obtain ⟨a, b, h⟩ := altitudeClampStep_eq p
  rw [h]

/-- A diving plane that is below both the warning threshold and the
maximum altitude passes through the altitude blocks untouched: the
minimum-altitude clamp is skipped while `isDiving` is set. -/
theorem altitudeClampStep_diving_low (p : EnemyPlane) (hd : p.isDiving = true)
    (hy : p.position.y ≤ p.altitudeWarningThreshold)
    (hy2 : p.position.y ≤ p.maxAltitude) :
    (altitudeClampStep p).position.y = p.position.y := by
  simp only [altitudeClampStep]
  split_ifs <;> simp_all <;> linarith

/-- C2 (amended): after any single `EnemyPlane.update` call the altitude
is at most `maxAltitude`, and it is at least `minAltitude` whenever the
plane is not in a diving attack when the call returns.  The unconditional
lower bound claimed by the specification fails during dives — the
minimum-altitude clamp is explicitly skipped while `isDiving` is set (see
the counterexample). -/
theorem c2_altitude_bounds (R : ℝ) (pp : Option Vec3) (o : UpdateOracle)
    (delta : ℝ) (p : EnemyPlane) (hmm : p.minAltitude ≤ p.maxAltitude) :
    (update R pp o delta p).position.y ≤ p.maxAltitude ∧
      ((update R pp o delta p).isDiving = false →
        p.minAltitude ≤ (update R pp o delta p).position.y) := by
  simp only [update]
  have e0min : (wrapBoundary R p).minAltitude = p.minAltitude := wrapBoundary_minAltitude R p
  have e0max : (wrapBoundary R p).maxAltitude = p.maxAltitude := wrapBoundary_maxAltitude R p
  have e1min : (dirTimerStep o (wrapBoundary R p)).minAltitude = p.minAltitude := by
    rw [dirTimerStep_minAltitude]; exact e0min
  have e1max : (dirTimerStep o (wrapBoundary R p)).maxAltitude = p.maxAltitude := by
    rw [dirTimerStep_maxAltitude]; exact e0max
  have e2min : (maneuverStep delta (dirTimerStep o (wrapBoundary R p))).minAltitude
      = p.minAltitude := by
    rw [maneuverStep_minAltitude]; exact e1min
  have e2max : (maneuverStep delta (dirTimerStep o (wrapBoundary R p))).maxAltitude
      = p.maxAltitude := by
    rw [maneuverStep_maxAltitude]; exact e1max
  have e3min : ((rotationStep delta
      (maneuverStep delta (dirTimerStep o (wrapBoundary R p)))).1).minAltitude
      = p.minAltitude := by
    rw [rotationStep_minAltitude]; exact e2min
  have e3max : ((rotationStep delta
      (maneuverStep delta (dirTimerStep o (wrapBoundary R p)))).1).maxAltitude
      = p.maxAltitude := by
    rw [rotationStep_maxAltitude]; exact e2max
  have e5min : (moveStep delta
      (rotationStep delta (maneuverStep delta (dirTimerStep o (wrapBoundary R p)))).2
      (speedStep delta
        (rotationStep delta (maneuverStep delta (dirTimerStep o (wrapBoundary R p)))).1)).minAltitude
      = p.minAltitude := e3min
  have e5max : (moveStep delta
      (rotationStep delta (maneuverStep delta (dirTimerStep o (wrapBoundary R p)))).2
      (speedStep delta
        (rotationStep delta (maneuverStep delta (dirTimerStep o (wrapBoundary R p)))).1)).maxAltitude
      = p.maxAltitude := e3max
  have hcl := altitudeClampStep_bounds
    (moveStep delta
      (rotationStep delta (maneuverStep delta (dirTimerStep o (wrapBoundary R p)))).2
      (speedStep delta
        (rotationStep delta (maneuverStep delta (dirTimerStep o (wrapBoundary R p)))).1))
    (by rw [e5min, e5max]; exact hmm)
  constructor
  · rw [maneuverStartStep_position]
    have h1 := hcl.1
    rw [e5max] at h1
    exact h1
  · intro hdF
    have hd7 : (meshStep delta (altitudeClampStep
        (moveStep delta
          (rotationStep delta (maneuverStep delta (dirTimerStep o (wrapBoundary R p)))).2
          (speedStep delta
            (rotationStep delta
              (maneuverStep delta (dirTimerStep o (wrapBoundary R p)))).1)))).isDiving = false :=
      maneuverStartStep_isDiving_mono _ _ _ hdF
    have hd5 : (moveStep delta
        (rotationStep delta (maneuverStep delta (dirTimerStep o (wrapBoundary R p)))).2
        (speedStep delta
          (rotationStep delta
            (maneuverStep delta (dirTimerStep o (wrapBoundary R p)))).1)).isDiving = false := by
      rw [← altitudeClampStep_isDiving]; exact hd7
    have h2 := hcl.2 hd5
    rw [e5min] at h2
    rw [maneuverStartStep_position]
    exact h2

/-- C2 witness: the sample plane keeps both bounds across one update. -/
theorem c2_altitude_bounds_witness :
    samplePlane.minAltitude ≤ samplePlane.maxAltitude ∧
      ((update 845 none sampleUpdOracle 0.016 samplePlane).position.y ≤
          samplePlane.maxAltitude ∧
        ((update 845 none sampleUpdOracle 0.016 samplePlane).isDiving = false →
          samplePlane.minAltitude ≤
            (update 845 none sampleUpdOracle 0.016 samplePlane).position.y)) :=
  ⟨by norm_num [samplePlane],
   c2_altitude_bounds 845 none sampleUpdOracle 0.016 samplePlane
     (by norm_num [samplePlane])⟩

end WPF

namespace WPF

/-- Sample plane caught mid-dive below the minimum altitude (y = 5,
`minAltitude = 15`), with a dive target beneath it. -/
noncomputable def lowDivePlane : EnemyPlane :=
  { samplePlane with
    position := ⟨0, 5, 0⟩,
    meshPosition := ⟨0, 5, 0⟩,
    isDiving := true,
    diveDuration := 2,
    diveTarget := ⟨0, 1, 0⟩ }

/-- C2 counterexample: one `update` call (with time step 0) on a diving
plane at altitude 5 returns altitude 5, strictly below `minAltitude = 15`
— the altitude is not kept inside `[minAltitude, maxAltitude]` during a
diving attack. -/
theorem c2_counterexample :
    (update 845 none sampleUpdOracle 0 lowDivePlane).position.y <
      (update 845 none sampleUpdOracle 0 lowDivePlane).minAltitude := by
  have hW : wrapBoundary 845 lowDivePlane = lowDivePlane := by
    simp only [wrapBoundary]
    rw [if_neg]
    norm_num [horizDist, lowDivePlane, samplePlane]
  have hT : dirTimerStep sampleUpdOracle lowDivePlane = lowDivePlane := by
    simp only [dirTimerStep]
    rw [if_neg]
    norm_num [sampleUpdOracle, lowDivePlane, samplePlane]
  have hMp : (maneuverStep 0 lowDivePlane).position = lowDivePlane.position :=
    maneuverStep_position 0 lowDivePlane
  have hMd : (maneuverStep 0 lowDivePlane).isDiving = true := by
    norm_num [maneuverStep, handleDivingAttack, lowDivePlane, samplePlane]
  simp only [update]
  rw [hW, hT]
  obtain ⟨rot, hr⟩ := rotationStep_eq 0 (maneuverStep 0 lowDivePlane)
  have hy5 : (moveStep 0 (rotationStep 0 (maneuverStep 0 lowDivePlane)).2
      (speedStep 0 (rotationStep 0 (maneuverStep 0 lowDivePlane)).1)).position.y = 5 := by
    show (speedStep 0 (rotationStep 0 (maneuverStep 0 lowDivePlane)).1).position.y +
        ((rotationStep 0 (maneuverStep 0 lowDivePlane)).2.y *
          (speedStep 0 (rotationStep 0 (maneuverStep 0 lowDivePlane)).1).currentSpeed) * 0 = 5
    rw [mul_zero, add_zero]
    show ((rotationStep 0 (maneuverStep 0 lowDivePlane)).1).position.y = 5
    rw [hr]
    show (maneuverStep 0 lowDivePlane).position.y = 5
    rw [hMp]
    norm_num [lowDivePlane, samplePlane]
  have hd5 : (moveStep 0 (rotationStep 0 (maneuverStep 0 lowDivePlane)).2
      (speedStep 0 (rotationStep 0 (maneuverStep 0 lowDivePlane)).1)).isDiving = true := by
    show ((rotationStep 0 (maneuverStep 0 lowDivePlane)).1).isDiving = true
    rw [hr]
    exact hMd
  have hmin5 : (moveStep 0 (rotationStep 0 (maneuverStep 0 lowDivePlane)).2
      (speedStep 0 (rotationStep 0 (maneuverStep 0 lowDivePlane)).1)).minAltitude = 15 := by
    show ((rotationStep 0 (maneuverStep 0 lowDivePlane)).1).minAltitude = 15
    rw [rotationStep_minAltitude, maneuverStep_minAltitude]
    norm_num [lowDivePlane, samplePlane]
  have hmax5 : (moveStep 0 (rotationStep 0 (maneuverStep 0 lowDivePlane)).2
      (speedStep 0 (rotationStep 0 (maneuverStep 0 lowDivePlane)).1)).maxAltitude = 120 := by
    show ((rotationStep 0 (maneuverStep 0 lowDivePlane)).1).maxAltitude = 120
    rw [rotationStep_maxAltitude, maneuverStep_maxAltitude]
    norm_num [lowDivePlane, samplePlane]
  have hwarn5 : (moveStep 0 (rotationStep 0 (maneuverStep 0 lowDivePlane)).2
      (speedStep 0 (rotationStep 0 (maneuverStep 0 lowDivePlane)).1)).altitudeWarningThreshold
      = 110 := by
    show ((rotationStep 0 (maneuverStep 0 lowDivePlane)).1).altitudeWarningThreshold = 110
    rw [rotationStep_warn, maneuverStep_warn]
    norm_num [lowDivePlane, samplePlane]
  rw [maneuverStartStep_position, maneuverStartStep_minAltitude]
  show (altitudeClampStep (moveStep 0 (rotationStep 0 (maneuverStep 0 lowDivePlane)).2
      (speedStep 0 (rotationStep 0 (maneuverStep 0 lowDivePlane)).1))).position.y <
    (altitudeClampStep (moveStep 0 (rotationStep 0 (maneuverStep 0 lowDivePlane)).2
      (speedStep 0 (rotationStep 0 (maneuverStep 0 lowDivePlane)).1))).minAltitude
  rw [altitudeClampStep_minAltitude, altitudeClampStep_diving_low _ hd5
    (by rw [hy5, hwarn5]; norm_num) (by rw [hy5, hmax5]; norm_num)]
  rw [hy5, hmin5]
  norm_num

end WPF

namespace WPF

theorem cos_atan2 (y x : ℝ) (h : x ^ 2 + y ^ 2 ≠ 0) :
    Real.cos (atan2 y x) = x / Real.sqrt (x ^ 2 + y ^ 2) := by
  have hz : (⟨x, y⟩ : ℂ) ≠ 0 := by
    intro hc
    rw [Complex.ext_iff] at hc
    apply h
    have hx : x = 0 := hc.1
    have hy : y = 0 := hc.2
    rw [hx, hy]; norm_num
  rw [atan2, Complex.cos_arg hz]
  rw [Complex.abs_apply, Complex.normSq_mk]
  rw [show x * x + y * y = x ^ 2 + y ^ 2 by ring]

theorem sin_atan2 (y x : ℝ) : Real.sin (atan2 y x) = y / Real.sqrt (x ^ 2 + y ^ 2) := by
  rw [atan2, Complex.sin_arg]
  rw [Complex.abs_apply, Complex.normSq_mk]
  rw [show x * x + y * y = x ^ 2 + y ^ 2 by ring]

/-- C5 (amended): an enemy beyond `worldRadius` is teleported to exactly
20% of the world radius on the diametrically opposite angular side (the
altitude is kept), and the reversed `targetDirection` has negative dot
product with the pre-wrap direction whenever the direction's horizontal
part dominates its vertical part.  For a vertically dominated direction
(e.g. straight up) the dot product can be non-negative, because only the
x and z components are negated — see the counterexample. -/
theorem c5_wrap_teleport (R : ℝ) (p : EnemyPlane)
    (hR : 0 < R) (hd : horizDist p.position > R) :
    (wrapBoundary R p).position =
        ⟨-(p.position.x / horizDist p.position) * (R * 0.2), p.position.y,
          -(p.position.z / horizDist p.position) * (R * 0.2)⟩ ∧
      horizDist (wrapBoundary R p).position = R * 0.2 ∧
      (p.targetDirection.y ^ 2 < p.targetDirection.x ^ 2 + p.targetDirection.z ^ 2 →
        dotV (wrapBoundary R p).targetDirection p.targetDirection < 0) := by
  have hd0 : 0 < horizDist p.position := lt_trans hR hd
  have hsq : p.position.x ^ 2 + p.position.z ^ 2 ≠ 0 := by
    intro hc
    rw [horizDist, hc, Real.sqrt_zero] at hd0
    exact lt_irrefl 0 hd0
  have hwrap : wrapBoundary R p = { p with
      position := ⟨-(Real.cos (atan2 p.position.z p.position.x)) * (R * 0.2),
        p.position.y, -(Real.sin (atan2 p.position.z p.position.x)) * (R * 0.2)⟩,
      targetDirection := normalizeV ⟨-p.targetDirection.x, p.targetDirection.y,
        -p.targetDirection.z⟩,
      returningToCenter := false, isEvading := false, isDiving := false,
      isRolling := false,
      meshPosition := ⟨-(Real.cos (atan2 p.position.z p.position.x)) * (R * 0.2),
        p.position.y, -(Real.sin (atan2 p.position.z p.position.x)) * (R * 0.2)⟩ } := by
    simp only [wrapBoundary]
    rw [if_pos hd]
  have hpos : (wrapBoundary R p).position =
      ⟨-(p.position.x / horizDist p.position) * (R * 0.2), p.position.y,
        -(p.position.z / horizDist p.position) * (R * 0.2)⟩ := by
    rw [hwrap]
    show (⟨-(Real.cos (atan2 p.position.z p.position.x)) * (R * 0.2), p.position.y,
        -(Real.sin (atan2 p.position.z p.position.x)) * (R * 0.2)⟩ : Vec3) = _
    rw [cos_atan2 _ _ hsq, sin_atan2]
    rfl
  refine ⟨hpos, ?_, ?_⟩
  · rw [hpos]
    simp only [horizDist] at hd0 ⊢
    set d := Real.sqrt (p.position.x ^ 2 + p.position.z ^ 2) with hdd
    have hd2 : d ^ 2 = p.position.x ^ 2 + p.position.z ^ 2 :=
      Real.sq_sqrt (by positivity)
    rw [show (-(p.position.x / d) * (R * 0.2)) ^ 2 +
          (-(p.position.z / d) * (R * 0.2)) ^ 2
        = (p.position.x ^ 2 + p.position.z ^ 2) / d ^ 2 * (R * 0.2) ^ 2 by
        field_simp; ring]
    rw [← hd2, div_self (by positivity), one_mul]
    exact Real.sqrt_sq (by positivity)
  · intro hdom
    rw [hwrap]
    show dotV (normalizeV ⟨-p.targetDirection.x, p.targetDirection.y,
      -p.targetDirection.z⟩) p.targetDirection < 0
    have hsum : 0 < p.targetDirection.x ^ 2 + p.targetDirection.y ^ 2 +
        p.targetDirection.z ^ 2 := by nlinarith [sq_nonneg p.targetDirection.y]
    have hlen : lenV ⟨-p.targetDirection.x, p.targetDirection.y,
        -p.targetDirection.z⟩ = Real.sqrt (p.targetDirection.x ^ 2 +
          p.targetDirection.y ^ 2 + p.targetDirection.z ^ 2) := by
      simp only [lenV, sqLen]
      rw [show (-p.targetDirection.x) ^ 2 + p.targetDirection.y ^ 2 +
          (-p.targetDirection.z) ^ 2 = p.targetDirection.x ^ 2 +
            p.targetDirection.y ^ 2 + p.targetDirection.z ^ 2 by ring]
    have hlpos : 0 < lenV ⟨-p.targetDirection.x, p.targetDirection.y,
        -p.targetDirection.z⟩ := by
      rw [hlen]; exact Real.sqrt_pos.mpr hsum
    rw [normalizeV, if_neg (ne_of_gt hlpos)]
    simp only [dotV, smulV]
    have hexp : 1 / lenV ⟨-p.targetDirection.x, p.targetDirection.y,
          -p.targetDirection.z⟩ * -p.targetDirection.x * p.targetDirection.x +
        1 / lenV ⟨-p.targetDirection.x, p.targetDirection.y, -p.targetDirection.z⟩ *
          p.targetDirection.y * p.targetDirection.y +
        1 / lenV ⟨-p.targetDirection.x, p.targetDirection.y, -p.targetDirection.z⟩ *
          -p.targetDirection.z * p.targetDirection.z
        = (p.targetDirection.y ^ 2 - p.targetDirection.x ^ 2 -
            p.targetDirection.z ^ 2) / lenV ⟨-p.targetDirection.x,
              p.targetDirection.y, -p.targetDirection.z⟩ := by
      field_simp
      ring
    rw [hexp]
    apply div_neg_of_neg_of_pos _ hlpos
    linarith

/-- Sample plane parked straight out along the x axis beyond the world
radius, with a horizontal target direction. -/
noncomputable def farPlane : EnemyPlane :=
  { samplePlane with position := ⟨1690, 50, 0⟩, meshPosition := ⟨1690, 50, 0⟩ }

/-- C5 witness: evaluating the wrap for the far plane. -/
theorem c5_wrap_teleport_witness :
    (0 : ℝ) < 845 ∧ horizDist farPlane.position > 845 ∧
      ((wrapBoundary 845 farPlane).position =
          ⟨-(farPlane.position.x / horizDist farPlane.position) * (845 * 0.2),
            farPlane.position.y,
            -(farPlane.position.z / horizDist farPlane.position) * (845 * 0.2)⟩ ∧
        horizDist (wrapBoundary 845 farPlane).position = 845 * 0.2 ∧
        (farPlane.targetDirection.y ^ 2 < farPlane.targetDirection.x ^ 2 +
            farPlane.targetDirection.z ^ 2 →
          dotV (wrapBoundary 845 farPlane).targetDirection
            farPlane.targetDirection < 0)) := by
  have hfar : horizDist farPlane.position = 1690 := by
    simp only [farPlane, samplePlane, horizDist]
    rw [show ((1690 : ℝ)) ^ 2 + (0 : ℝ) ^ 2 = 1690 ^ 2 by norm_num]
    rw [Real.sqrt_sq (by norm_num)]
  exact ⟨by norm_num, by rw [hfar]; norm_num,
    c5_wrap_teleport 845 farPlane (by norm_num) (by rw [hfar]; norm_num)⟩

/-- Sample plane beyond the world radius whose target direction points
straight up. -/
noncomputable def upPlane : EnemyPlane :=
  { samplePlane with
    position := ⟨900, 50, 0⟩,
    meshPosition := ⟨900, 50, 0⟩,
    targetDirection := ⟨0, 1, 0⟩ }

/-- C5 counterexample: for an out-of-bounds enemy whose `targetDirection`
is straight up, the post-wrap target direction has dot product 1 with the
pre-wrap direction — not negative: the wrap negates only the horizontal
components. -/
theorem c5_counterexample :
    horizDist upPlane.position > 845 ∧
      ¬ dotV (wrapBoundary 845 upPlane).targetDirection
          upPlane.targetDirection < 0 := by
  have h900 : horizDist upPlane.position = 900 := by
    simp only [upPlane, samplePlane, horizDist]
    rw [show ((900 : ℝ)) ^ 2 + (0 : ℝ) ^ 2 = 900 ^ 2 by norm_num]
    rw [Real.sqrt_sq (by norm_num)]
  refine ⟨by rw [h900]; norm_num, ?_⟩
  simp only [wrapBoundary]
  rw [if_pos (by rw [h900]; norm_num)]
  show ¬ dotV (normalizeV ⟨-upPlane.targetDirection.x, upPlane.targetDirection.y,
    -upPlane.targetDirection.z⟩) upPlane.targetDirection < 0
  norm_num [upPlane, samplePlane, normalizeV, lenV, sqLen, smulV, dotV]

end WPF

namespace WPF

/-
Embedding of the current player variant, src/src/components/Player.js.
DOM/key handling is out of scope: the control-flag snapshot is a state
field.  Sounds, HUD and the visual mesh construction are collaborator
side effects; the mesh pose used by `shoot` is derived from the player
rotation through the same quaternion composition the source builds
(`yawQ * pitchQ(0.7x) * rollQ(-clamped 1.4z)`).
-/

/-- Control-flag snapshot (`this.controls`). -/
structure Controls where
  throttle : Bool
  brake : Bool
  left : Bool
  right : Bool
  up : Bool
  down : Bool
  shoot : Bool

/-- One entry of the player's bullet list: tracked mesh position, velocity,
and creation timestamp (`originalScale`/`direction` are render-only). -/
structure Bullet where
  position : Vec3
  velocity : Vec3
  createdAt : ℝ

/-- Player state (constructor fields of `Player` that the simulation reads
or writes). -/
structure Player where
  position : Vec3
  rotation : Euler
  speed : ℝ
  maxSpeed : ℝ
  minSpeed : ℝ
  throttle : ℝ
  isGrounded : Bool
  velocity : Vec3
  acceleration : Vec3
  gravity : Vec3
  drag : ℝ
  lift : ℝ
  thrustPower : ℝ
  pitchRate : ℝ
  rollRate : ℝ
  yawRate : ℝ
  stabilizationRate : ℝ
  maxPitch : ℝ
  maxRoll : ℝ
  bullets : List Bullet
  bulletSpeed : ℝ
  bulletCooldown : ℝ
  lastShotTime : ℝ
  controls : Controls
  meshPosition : Vec3

/-- Pitch block of `Player.updateRotation` (lines 336-353). -/
def pitchStep (delta : ℝ) (p : Player) : Player :=
  let rotationSpeed := delta * 2.0
  let x1 := if p.controls.up then
      max (p.rotation.x - p.pitchRate * rotationSpeed) (-p.maxPitch)
    else p.rotation.x
  let x2 := if p.controls.down then min (x1 + p.pitchRate * rotationSpeed) p.maxPitch
    else x1
  let x3 := if ¬ p.controls.up ∧ ¬ p.controls.down then x2 * 0.95 else x2
  { p with rotation := { p.rotation with x := x3 } }

/-- Coupled roll/yaw block of `Player.updateRotation` (lines 355-382):
holding left/right interpolates roll toward ±60% of `maxRoll` and, above
the minimum forward speed, accumulates yaw (at most π/8 per second);
otherwise roll auto-levels. -/
noncomputable def rollYawStep (delta : ℝ) (p : Player) : Player :=
  let rotationSpeed := delta * 2.0
  if p.controls.left ∨ p.controls.right then
    let direction : ℝ := if p.controls.left then 1 else -1
    let targetRoll := direction * p.maxRoll * 0.6
    let rollDelta := rotationSpeed * p.rollRate * 0.7
    let z1 := lerpS p.rotation.z targetRoll rollDelta
    let y1 := if p.speed > p.minSpeed then
        p.rotation.y + direction * min (rotationSpeed * p.yawRate) (Real.pi / 8 * delta)
      else p.rotation.y
    { p with rotation := { p.rotation with y := y1, z := z1 } }
  else
    { p with rotation := { p.rotation with
        z := p.rotation.z * p.stabilizationRate * 0.9 } }

/-- Yaw wrap of `Player.updateRotation` (line 385):
`rotation.y = ((rotation.y + PI) % (2*PI)) - PI` with the JavaScript
remainder operator. -/
noncomputable def wrapYawStep (p : Player) : Player :=
  { p with rotation := { p.rotation with
      y := jsRem (p.rotation.y + Real.pi) (Real.pi * 2) - Real.pi } }

/-- `Player.updateRotation` as the composition of its three blocks. -/
noncomputable def updateRotation (delta : ℝ) (p : Player) : Player :=
  wrapYawStep (rollYawStep delta (pitchStep delta p))

/-- Visual roll used for the mesh quaternion: 140% of the roll angle,
clamped to ±90° (`Player.update` lines 300-304). -/
noncomputable def clampedVisualRoll (z : ℝ) : ℝ :=
  max (min (z * 1.4) (Real.pi / 2)) (-(Real.pi / 2))

/-- Application of the player mesh quaternion `yawQ * pitchQ * rollQ`
(`Player.update` lines 296-312) to a local vector. -/
noncomputable def meshQuatApply (r : Euler) (v : Vec3) : Vec3 :=
  rotY r.y (rotX (r.x * 0.7) (rotZ (-(clampedVisualRoll r.z)) v))

/-- `Player.shoot`: a no-op during the cooldown window; otherwise appends
a bullet at the nose position with velocity `forward × bulletSpeed` and
resets the cooldown timer.  The shot sound is a collaborator effect. -/
noncomputable def shoot (now : ℝ) (p : Player) : Player :=
  if now - p.lastShotTime < p.bulletCooldown then p
  else
    let forward := normalizeV (meshQuatApply p.rotation ⟨0, 0, 1⟩)
    let frontPosition := addV (meshQuatApply p.rotation ⟨0, 0, 2⟩) p.meshPosition
    { p with
      bullets := p.bullets ++ [⟨frontPosition, smulV p.bulletSpeed forward, now⟩],
      lastShotTime := now }

/-- Per-bullet position integration (`Player.updateBullets` lines 466-483). -/
def moveBullet (delta : ℝ) (b : Bullet) : Bullet :=
  { b with position := ⟨b.position.x + b.velocity.x * delta,
      b.position.y + b.velocity.y * delta, b.position.z + b.velocity.z * delta⟩ }

/-- First two removal passes of `Player.updateBullets`: every moved bullet
beyond the world radius is removed (the splice-with-index-decrement loop
removes exactly the bullets failing the test, guarded by the truthiness
check `if (this.game.worldRadius)`), then every bullet older than 3
seconds is removed. -/
noncomputable def survivingBullets (R now delta : ℝ) (bs : List Bullet) : List Bullet :=
  let moved := bs.map (moveBullet delta)
  let inBounds := if R ≠ 0 then moved.filter (fun b => ¬ horizDist b.position > R)
    else moved
  inBounds.filter (fun b => ¬ now - b.createdAt > 3)

/-- `Player.updateBullets` (lines 464-529): integrate, remove out-of-bounds
and expired bullets, then cap the list at `MAX_BULLETS = 20` by splicing
off the front (oldest) entries. -/
noncomputable def updateBullets (R now delta : ℝ) (bs : List Bullet) : List Bullet :=
  let young := survivingBullets R now delta bs
  if young.length > 20 then young.drop (young.length - 20) else young

/-- Throttle ramp of `Player.update` (lines 215-225): the acceleration is
reset, then throttle moves toward 1 or 0 at rate 2/s while the throttle or
brake flag is held. -/
def throttleStep (delta : ℝ) (p : Player) : Player :=
  let p0 := { p with acceleration := (⟨0, 0, 0⟩ : Vec3) }
  if p0.controls.throttle then
    { p0 with throttle := min 1 (p0.throttle + delta * 2.0) }
  else if p0.controls.brake then
    { p0 with throttle := max 0 (p0.throttle - delta * 2.0) }
  else p0

/-- Body-forward direction of `Player.update` (lines 227-234): a unit
forward vector rotated by yaw, then by pitch about the yawed pitch axis,
then normalised. -/
noncomputable def bodyForward (r : Euler) : Vec3 :=
  let forward0 := applyAxisAngle ⟨0, 1, 0⟩ r.y ⟨0, 0, 1⟩
  let pitchAxis := applyAxisAngle ⟨0, 1, 0⟩ r.y ⟨1, 0, 0⟩
  normalizeV (applyAxisAngle pitchAxis r.x forward0)

/-- Lift block of `Player.update` (lines 236-246): above 10% throttle, a
base lift matching the reduced gravity plus pitch-proportional lift. -/
noncomputable def liftStep (delta : ℝ) (p : Player) : Player :=
  if p.throttle > 0.1 then
    let baseLift : Vec3 := ⟨0, 9.81 * 0.7 * delta, 0⟩
    let pitchLift : Vec3 := ⟨0, -p.rotation.x * 3.0 * p.throttle * 20 * delta, 0⟩
    { p with acceleration := addV (addV p.acceleration baseLift) pitchLift }
  else p

/-- Thrust, gravity and drag accumulation of `Player.update`
(lines 248-258). -/
noncomputable def forcesStep (delta : ℝ) (p : Player) : Player :=
  let thrustForce := smulV (p.throttle * p.thrustPower * delta) (bodyForward p.rotation)
  let p3 := { p with acceleration := addV p.acceleration thrustForce }
  let gravityForce := smulV (delta * 0.7) p3.gravity
  let p4 := { p3 with acceleration := addV p3.acceleration gravityForce }
  let dragForce := smulV (-p4.drag * sqLen p4.velocity) (normalizeV p4.velocity)
  { p4 with acceleration := addV p4.acceleration dragForce }

/-- Speed book-keeping and airborne flag of `Player.update`
(lines 260-266): `speed` records the pre-step velocity magnitude and more
than 50% throttle marks the plane as flying. -/
noncomputable def speedFlagStep (p : Player) : Player :=
  let p6 := { p with speed := lenV p.velocity }
  if p6.throttle > 0.5 then { p6 with isGrounded := false } else p6

/-- Velocity integration and max-speed clamp of `Player.update`
(lines 268-274). -/
noncomputable def velocityClampStep (p : Player) : Player :=
  let p8 := { p with velocity := addV p.velocity p.acceleration }
  if lenV p8.velocity > p8.maxSpeed then
    { p8 with velocity := smulV p8.maxSpeed (normalizeV p8.velocity) }
  else p8

/-- Ground-contact block of `Player.update` (lines 276-285): below
altitude 1 with downward velocity, the altitude is pinned, vertical
velocity zeroed, the plane grounded and horizontal friction applied. -/
noncomputable def groundStep (p : Player) : Player :=
  if p.position.y < 1.0 ∧ p.velocity.y < 0 then
    { p with
      position := { p.position with y := 1.0 },
      velocity := ⟨p.velocity.x * 0.95, 0, p.velocity.z * 0.95⟩,
      isGrounded := true }
  else p

/-- Position integration of `Player.update` (line 288). -/
def movePositionStep (delta : ℝ) (p : Player) : Player :=
  { p with position := addV p.position (smulV delta p.velocity) }

/-- Mesh-pose sync of `Player.update` (lines 293-318); the quaternion pose
and propeller spin are render-side, the mesh position is mirrored. -/
def playerMeshStep (p : Player) : Player :=
  { p with meshPosition := p.position }

/-- Firing block of `Player.update` (lines 321-323). -/
noncomputable def shootStep (now : ℝ) (p : Player) : Player :=
  if p.controls.shoot then shoot now p else p

/-- `Player.update`: throttle ramp, body-forward thrust, lift, gravity,
drag, speed clamp, ground contact, integration, rotation update, firing
and bullet maintenance, in source order (lines 214-330). -/
noncomputable def playerUpdate (R now delta : ℝ) (p : Player) : Player :=
  let p1 := throttleStep delta p
  let p2 := liftStep delta p1
  let p5 := forcesStep delta p2
  let p7 := speedFlagStep p5
  let p9 := velocityClampStep p7
  let p10 := groundStep p9
  let p11 := movePositionStep delta p10
  let p12 := updateRotation delta p11
  let p13 := playerMeshStep p12
  let p14 := shootStep now p13
  { p14 with bullets := updateBullets R now delta p14.bullets }

end WPF

namespace WPF

/-- Concrete player state with constructor values
(src/src/components/Player.js lines 9-52), no input held. -/
noncomputable def samplePlayer : Player where
  position := ⟨0, 10, 0⟩
  rotation := ⟨0, 0, 0⟩
  speed := 0
  maxSpeed := 100 / 3.6
  minSpeed := 5
  throttle := 0
  isGrounded := true
  velocity := ⟨0, 0, 0⟩
  acceleration := ⟨0, 0, 0⟩
  gravity := ⟨0, -9.81, 0⟩
  drag := 0.002
  lift := 1.2
  thrustPower := 100
  pitchRate := 1
  rollRate := 1
  yawRate := 0.3
  stabilizationRate := 0.95
  maxPitch := Real.pi / 6
  maxRoll := Real.pi / 2
  bullets := []
  bulletSpeed := 80
  bulletCooldown := 0.1
  lastShotTime := 0
  controls := ⟨false, false, false, false, false, false, false⟩
  meshPosition := ⟨0, 10, 0⟩

/-- Sample player whose yaw has drifted to −3π/2 (reachable by holding
right while above minimum speed, since negative yaw is never wrapped). -/
noncomputable def stuckPlayer : Player :=
  { samplePlayer with rotation := ⟨0, -(3 * Real.pi / 2), 0⟩ }

theorem rollYawStep_y_no_input (delta : ℝ) (p : Player)
    (hl : p.controls.left = false) (hr : p.controls.right = false) :
    (rollYawStep delta p).rotation.y = p.rotation.y := by
  simp only [rollYawStep]
  have hc : ¬ (p.controls.left = true ∨ p.controls.right = true) := by
    simp [hl, hr]
  rw [if_neg hc]

/-- C9: the auto-wrap `rotation.y = ((y + π) % 2π) − π` uses the
JavaScript remainder operator, which keeps the sign of the dividend, so a
yaw of −3π/2 is returned unchanged by `updateRotation` — outside the
claimed interval (−π, π], contradicting the code's own comment
"Keep yaw angle between -PI and PI". -/
theorem c9_yaw_wrap_failure :
    (updateRotation 0.016 stuckPlayer).rotation.y = -(3 * Real.pi / 2) ∧
      ¬ (-Real.pi < (updateRotation 0.016 stuckPlayer).rotation.y ∧
          (updateRotation 0.016 stuckPlayer).rotation.y ≤ Real.pi) := by
  have hpi := Real.pi_pos
  have hy1 : (rollYawStep 0.016 (pitchStep 0.016 stuckPlayer)).rotation.y
      = -(3 * Real.pi / 2) := by
    rw [rollYawStep_y_no_input]
    · rfl
    · rfl
    · rfl
  have hkey : (updateRotation 0.016 stuckPlayer).rotation.y
      = jsRem (-(3 * Real.pi / 2) + Real.pi) (Real.pi * 2) - Real.pi := by
    show jsRem ((rollYawStep 0.016 (pitchStep 0.016 stuckPlayer)).rotation.y + Real.pi)
        (Real.pi * 2) - Real.pi = _
    rw [hy1]
  have harg : (-(3 * Real.pi / 2) + Real.pi) = -(Real.pi / 2) := by ring
  have hdiv : (-(Real.pi / 2)) / (Real.pi * 2) = -(1 / 4 : ℝ) := by
    field_simp
    ring
  have hrem : jsRem (-(Real.pi / 2)) (Real.pi * 2) = -(Real.pi / 2) := by
    rw [jsRem, jsTrunc, hdiv, if_neg (by norm_num)]
    rw [show ⌈(-(1 / 4 : ℝ))⌉ = 0 from Int.ceil_eq_zero_iff.mpr (by constructor <;> norm_num)]
    push_cast
    ring
  have hval : (updateRotation 0.016 stuckPlayer).rotation.y = -(3 * Real.pi / 2) := by
    rw [hkey, harg, hrem]
    ring
  refine ⟨hval, ?_⟩
  rw [hval]
  intro hc
  linarith [hc.1]

end WPF

namespace WPF

theorem lenV_normalizeV (v : Vec3) (h : lenV v ≠ 0) : lenV (normalizeV v) = 1 := by
  rw [normalizeV, if_neg h, lenV_smulV]
  have h0 : 0 < lenV v := lt_of_le_of_ne (lenV_nonneg v) (Ne.symm h)
  rw [abs_of_pos (by positivity)]
  field_simp

theorem dirTimerStep_currentSpeed (o : UpdateOracle) (p : EnemyPlane) :
    (dirTimerStep o p).currentSpeed = p.currentSpeed := by
  obtain ⟨a, b, c, h⟩ := dirTimerStep_eq o p; rw [h]

theorem dirTimerStep_speed (o : UpdateOracle) (p : EnemyPlane) :
    (dirTimerStep o p).speed = p.speed := by
  obtain ⟨a, b, c, h⟩ := dirTimerStep_eq o p; rw [h]

theorem dirTimerStep_speedChangeRate (o : UpdateOracle) (p : EnemyPlane) :
    (dirTimerStep o p).speedChangeRate = p.speedChangeRate := by
  obtain ⟨a, b, c, h⟩ := dirTimerStep_eq o p; rw [h]

theorem dirTimerStep_behaviorState (o : UpdateOracle) (p : EnemyPlane) :
    (dirTimerStep o p).behaviorState = p.behaviorState := by
  obtain ⟨a, b, c, h⟩ := dirTimerStep_eq o p; rw [h]

theorem maneuverStep_currentSpeed (delta : ℝ) (p : EnemyPlane) :
    (maneuverStep delta p).currentSpeed = p.currentSpeed := by
  obtain ⟨a, b, c, d, e, f, g, h1, h2, h3, h, -⟩ := maneuverStep_eq delta p; rw [h]

theorem maneuverStep_speed (delta : ℝ) (p : EnemyPlane) :
    (maneuverStep delta p).speed = p.speed := by
  obtain ⟨a, b, c, d, e, f, g, h1, h2, h3, h, -⟩ := maneuverStep_eq delta p; rw [h]

theorem maneuverStep_speedChangeRate (delta : ℝ) (p : EnemyPlane) :
    (maneuverStep delta p).speedChangeRate = p.speedChangeRate := by
  obtain ⟨a, b, c, d, e, f, g, h1, h2, h3, h, -⟩ := maneuverStep_eq delta p; rw [h]

theorem maneuverStep_behaviorState (delta : ℝ) (p : EnemyPlane) :
    (maneuverStep delta p).behaviorState = p.behaviorState := by
  obtain ⟨a, b, c, d, e, f, g, h1, h2, h3, h, -⟩ := maneuverStep_eq delta p; rw [h]

theorem rotationStep_currentSpeed (delta : ℝ) (p : EnemyPlane) :
    ((rotationStep delta p).1).currentSpeed = p.currentSpeed := by
  obtain ⟨rot, h⟩ := rotationStep_eq delta p; rw [h]

theorem rotationStep_speed (delta : ℝ) (p : EnemyPlane) :
    ((rotationStep delta p).1).speed = p.speed := by
  obtain ⟨rot, h⟩ := rotationStep_eq delta p; rw [h]

theorem rotationStep_speedChangeRate (delta : ℝ) (p : EnemyPlane) :
    ((rotationStep delta p).1).speedChangeRate = p.speedChangeRate := by
  obtain ⟨rot, h⟩ := rotationStep_eq delta p; rw [h]

theorem rotationStep_behaviorState (delta : ℝ) (p : EnemyPlane) :
    ((rotationStep delta p).1).behaviorState = p.behaviorState := by
  obtain ⟨rot, h⟩ := rotationStep_eq delta p; rw [h]

theorem wrapBoundary_behaviorState (R : ℝ) (p : EnemyPlane) :
    (wrapBoundary R p).behaviorState = p.behaviorState := by
  simp only [wrapBoundary]; split_ifs <;> rfl

theorem altitudeClampStep_velocity (p : EnemyPlane) :
    (altitudeClampStep p).velocity = p.velocity := by
  obtain ⟨a, b, h⟩ := altitudeClampStep_eq p; rw [h]

theorem updateRotation_velocity (delta : ℝ) (p : Player) :
    (updateRotation delta p).velocity = p.velocity := by
  simp only [updateRotation, wrapYawStep]
  show (rollYawStep delta (pitchStep delta p)).velocity = p.velocity
  simp only [rollYawStep]
  split_ifs <;> rfl

theorem shootStep_velocity (now : ℝ) (p : Player) :
    (shootStep now p).velocity = p.velocity := by
  simp only [shootStep, shoot]
  split_ifs <;> rfl

theorem throttleStep_maxSpeed (delta : ℝ) (p : Player) :
    (throttleStep delta p).maxSpeed = p.maxSpeed := by
  simp only [throttleStep]; split_ifs <;> rfl

theorem liftStep_maxSpeed (delta : ℝ) (p : Player) :
    (liftStep delta p).maxSpeed = p.maxSpeed := by
  simp only [liftStep]; split_ifs <;> rfl

theorem speedFlagStep_maxSpeed (p : Player) :
    (speedFlagStep p).maxSpeed = p.maxSpeed := by
  simp only [speedFlagStep]; split_ifs <;> rfl

theorem speedFlagStep_velocity (p : Player) :
    (speedFlagStep p).velocity = p.velocity := by
  simp only [speedFlagStep]; split_ifs <;> rfl

theorem throttleStep_velocity (delta : ℝ) (p : Player) :
    (throttleStep delta p).velocity = p.velocity := by
  simp only [throttleStep]; split_ifs <;> rfl

theorem liftStep_velocity (delta : ℝ) (p : Player) :
    (liftStep delta p).velocity = p.velocity := by
  simp only [liftStep]; split_ifs <;> rfl

/-- After the max-speed clamp the velocity magnitude is at most
`maxSpeed` (for a non-negative configured `maxSpeed`). -/
theorem velocityClampStep_lenV (p : Player) (h : 0 ≤ p.maxSpeed) :
    lenV (velocityClampStep p).velocity ≤ p.maxSpeed := by
  simp only [velocityClampStep]
  split_ifs with h1
  · have h1' : lenV (addV p.velocity p.acceleration) > p.maxSpeed := h1
    have hpos : 0 < lenV (addV p.velocity p.acceleration) := lt_of_le_of_lt h h1'
    show lenV (smulV p.maxSpeed (normalizeV (addV p.velocity p.acceleration))) ≤ p.maxSpeed
    rw [lenV_smulV, lenV_normalizeV _ (ne_of_gt hpos), abs_of_nonneg h, mul_one]
  · exact le_of_not_lt h1

/-- Ground friction and vertical zeroing never increase speed. -/
theorem groundStep_lenV (p : Player) :
    lenV (groundStep p).velocity ≤ lenV p.velocity := by
  simp only [groundStep]
  split_ifs with h
  · show lenV ⟨p.velocity.x * 0.95, 0, p.velocity.z * 0.95⟩ ≤ lenV p.velocity
    simp only [lenV, sqLen]
    apply Real.sqrt_le_sqrt
    nlinarith [sq_nonneg p.velocity.x, sq_nonneg p.velocity.y, sq_nonneg p.velocity.z]
  · exact le_rfl

/-- Player half of C7: after one `Player.update` the speed does not exceed
the configured `maxSpeed`. -/
theorem playerSpeedClamped (R now delta : ℝ) (p : Player) (h : 0 ≤ p.maxSpeed) :
    lenV (playerUpdate R now delta p).velocity ≤ p.maxSpeed := by
  simp only [playerUpdate]
  rw [shootStep_velocity]
  show lenV (updateRotation delta (movePositionStep delta
      (groundStep (velocityClampStep
        (speedFlagStep (forcesStep delta (liftStep delta (throttleStep delta p)))))))).velocity
    ≤ p.maxSpeed
  rw [updateRotation_velocity]
  show lenV (groundStep (velocityClampStep
      (speedFlagStep (forcesStep delta (liftStep delta (throttleStep delta p)))))).velocity
    ≤ p.maxSpeed
  have hms : (speedFlagStep (forcesStep delta
      (liftStep delta (throttleStep delta p)))).maxSpeed = p.maxSpeed := by
    rw [speedFlagStep_maxSpeed]
    show (liftStep delta (throttleStep delta p)).maxSpeed = p.maxSpeed
    rw [liftStep_maxSpeed, throttleStep_maxSpeed]
  calc lenV (groundStep (velocityClampStep
        (speedFlagStep (forcesStep delta (liftStep delta (throttleStep delta p)))))).velocity
      ≤ lenV (velocityClampStep
        (speedFlagStep (forcesStep delta (liftStep delta (throttleStep delta p))))).velocity :=
        groundStep_lenV _
    _ ≤ (speedFlagStep (forcesStep delta
          (liftStep delta (throttleStep delta p)))).maxSpeed :=
        velocityClampStep_lenV _ (by rw [hms]; exact h)
    _ = p.maxSpeed := hms

/-- Enemy half of C7: the speed after one `EnemyPlane.update` is bounded
by the previous `currentSpeed` magnitude or 1.3 times the base speed —
the enemy has no `maxSpeed` field at all. -/
theorem enemySpeedBounded (R : ℝ) (pp : Option Vec3) (o : UpdateOracle)
    (delta : ℝ) (q : EnemyPlane) (hs : 0 ≤ q.speed)
    (hr : 0 ≤ q.speedChangeRate * delta) :
    lenV (update R pp o delta q).velocity ≤ max |q.currentSpeed| (q.speed * 1.3) := by
  simp only [update]
  rw [maneuverStartStep_velocity]
  show lenV (altitudeClampStep (moveStep delta
      (rotationStep delta (maneuverStep delta (dirTimerStep o (wrapBoundary R q)))).2
      (speedStep delta
        (rotationStep delta
          (maneuverStep delta (dirTimerStep o (wrapBoundary R q)))).1))).velocity ≤ _
  rw [altitudeClampStep_velocity, moveStep_velocity, lenV_smulV]
  have hdir : lenV ((rotationStep delta
      (maneuverStep delta (dirTimerStep o (wrapBoundary R q)))).2) = 1 := by
    rw [lenV, rotationStep_dir_sqLen, Real.sqrt_one]
  rw [hdir, mul_one]
  have hc : ((rotationStep delta
      (maneuverStep delta (dirTimerStep o (wrapBoundary R q)))).1).currentSpeed
      = q.currentSpeed := by
    rw [rotationStep_currentSpeed, maneuverStep_currentSpeed,
      dirTimerStep_currentSpeed, wrapBoundary_currentSpeed]
  have hsp : ((rotationStep delta
      (maneuverStep delta (dirTimerStep o (wrapBoundary R q)))).1).speed = q.speed := by
    rw [rotationStep_speed, maneuverStep_speed, dirTimerStep_speed, wrapBoundary_speed]
  have hrt : ((rotationStep delta
      (maneuverStep delta (dirTimerStep o (wrapBoundary R q)))).1).speedChangeRate
      = q.speedChangeRate := by
    rw [rotationStep_speedChangeRate, maneuverStep_speedChangeRate,
      dirTimerStep_speedChangeRate, wrapBoundary_speedChangeRate]
  have hb := speedStep_bound delta
    ((rotationStep delta (maneuverStep delta (dirTimerStep o (wrapBoundary R q)))).1)
    (by rw [hsp]; exact hs) (by rw [hrt]; exact hr)
  rw [hc, hsp] at hb
  exact hb

/-- C7 (amended): the player's speed never exceeds the configured
`maxSpeed` after one update; the enemy plane has no `maxSpeed` field, and
its speed after one update is bounded by the previous `currentSpeed`
magnitude or 1.3 × its base `speed` (behaviour scaling), which can exceed
the base speed — see the counterexample. -/
theorem c7_speed_bounds :
    (∀ (R now delta : ℝ) (p : Player), 0 ≤ p.maxSpeed →
        lenV (playerUpdate R now delta p).velocity ≤ p.maxSpeed) ∧
      (∀ (R : ℝ) (pp : Option Vec3) (o : UpdateOracle) (delta : ℝ) (q : EnemyPlane),
        0 ≤ q.speed → 0 ≤ q.speedChangeRate * delta →
          lenV (update R pp o delta q).velocity ≤ max |q.currentSpeed| (q.speed * 1.3)) :=
  ⟨fun R now delta p h => playerSpeedClamped R now delta p h,
   fun R pp o delta q hs hr => enemySpeedBounded R pp o delta q hs hr⟩

/-- C7 witness: both bounds evaluated at the sample states. -/
theorem c7_speed_bounds_witness :
    ((0 : ℝ) ≤ samplePlayer.maxSpeed ∧
      lenV (playerUpdate 845 0 0.016 samplePlayer).velocity ≤ samplePlayer.maxSpeed) ∧
      ((0 : ℝ) ≤ samplePlane.speed ∧ (0 : ℝ) ≤ samplePlane.speedChangeRate * 0.016 ∧
        lenV (update 845 none sampleUpdOracle 0.016 samplePlane).velocity ≤
          max |samplePlane.currentSpeed| (samplePlane.speed * 1.3)) :=
  ⟨⟨by norm_num [samplePlayer],
    c7_speed_bounds.1 845 0 0.016 samplePlayer (by norm_num [samplePlayer])⟩,
   ⟨by norm_num [samplePlane], by norm_num [samplePlane],
    c7_speed_bounds.2 845 none sampleUpdOracle 0.016 samplePlane
      (by norm_num [samplePlane]) (by norm_num [samplePlane])⟩⟩

end WPF

namespace WPF

/-- Sample plane in the aggressive behaviour state, flying at its full
base speed. -/
noncomputable def aggroPlane : EnemyPlane :=
  { samplePlane with behaviorState := BehaviorState.aggressive, currentSpeed := 10 }

/-- C7 counterexample: an aggressive enemy already at its configured base
speed (`speed = 10`, the only configured speed limit an enemy has)
accelerates beyond it in one update — speed 10.5 after one second —
because the aggressive target speed is `1.2 × speed`. -/
theorem c7_counterexample :
    lenV (update 845 none sampleUpdOracle 1 aggroPlane).velocity > aggroPlane.speed := by
  simp only [update]
  rw [maneuverStartStep_velocity]
  show lenV (altitudeClampStep (moveStep 1
      (rotationStep 1 (maneuverStep 1 (dirTimerStep sampleUpdOracle
        (wrapBoundary 845 aggroPlane)))).2
      (speedStep 1
        (rotationStep 1 (maneuverStep 1 (dirTimerStep sampleUpdOracle
          (wrapBoundary 845 aggroPlane)))).1))).velocity > _
  rw [altitudeClampStep_velocity, moveStep_velocity, lenV_smulV]
  have hdir : lenV ((rotationStep 1 (maneuverStep 1 (dirTimerStep sampleUpdOracle
      (wrapBoundary 845 aggroPlane)))).2) = 1 := by
    rw [lenV, rotationStep_dir_sqLen, Real.sqrt_one]
  rw [hdir, mul_one]
  have hc : ((rotationStep 1 (maneuverStep 1 (dirTimerStep sampleUpdOracle
      (wrapBoundary 845 aggroPlane)))).1).currentSpeed = 10 := by
    rw [rotationStep_currentSpeed, maneuverStep_currentSpeed,
      dirTimerStep_currentSpeed, wrapBoundary_currentSpeed]
    norm_num [aggroPlane, samplePlane]
  have hsp : ((rotationStep 1 (maneuverStep 1 (dirTimerStep sampleUpdOracle
      (wrapBoundary 845 aggroPlane)))).1).speed = 10 := by
    rw [rotationStep_speed, maneuverStep_speed, dirTimerStep_speed, wrapBoundary_speed]
    norm_num [aggroPlane, samplePlane]
  have hrt : ((rotationStep 1 (maneuverStep 1 (dirTimerStep sampleUpdOracle
      (wrapBoundary 845 aggroPlane)))).1).speedChangeRate = 0.5 := by
    rw [rotationStep_speedChangeRate, maneuverStep_speedChangeRate,
      dirTimerStep_speedChangeRate, wrapBoundary_speedChangeRate]
    norm_num [aggroPlane, samplePlane]
  have hbs : ((rotationStep 1 (maneuverStep 1 (dirTimerStep sampleUpdOracle
      (wrapBoundary 845 aggroPlane)))).1).behaviorState = BehaviorState.aggressive := by
    rw [rotationStep_behaviorState, maneuverStep_behaviorState,
      dirTimerStep_behaviorState, wrapBoundary_behaviorState]
    norm_num [aggroPlane, samplePlane]
  have hcs : (speedStep 1 ((rotationStep 1 (maneuverStep 1 (dirTimerStep sampleUpdOracle
      (wrapBoundary 845 aggroPlane)))).1)).currentSpeed = 10.5 := by
    simp only [speedStep]
    rw [if_pos hbs]
    rw [if_pos (show ((rotationStep 1 (maneuverStep 1 (dirTimerStep sampleUpdOracle
        (wrapBoundary 845 aggroPlane)))).1).currentSpeed <
      ((rotationStep 1 (maneuverStep 1 (dirTimerStep sampleUpdOracle
        (wrapBoundary 845 aggroPlane)))).1).speed * 1.2 by rw [hc, hsp]; norm_num)]
    rw [hc, hsp, hrt]
    rw [min_eq_right (by norm_num)]
    norm_num
  rw [hcs]
  rw [show |(10.5 : ℝ)| = 10.5 from abs_of_pos (by norm_num)]
  norm_num [aggroPlane, samplePlane]

end WPF

namespace WPF

/-- C8: after one `Player.updateBullets` pass every remaining bullet is at
most 3 seconds old and inside the world radius (given a configured,
nonzero `worldRadius`), the list length never exceeds the cap of 20 and,
for a creation-time-ordered list, the bullets evicted by the cap are all
at least as old as every kept bullet (oldest evicted first). -/
theorem c8_bullet_list_invariants (R now delta : ℝ) (bs : List Bullet)
    (hR : R ≠ 0)
    (hsorted : bs.Pairwise (fun a b => a.createdAt ≤ b.createdAt)) :
    (∀ b ∈ updateBullets R now delta bs,
        now - b.createdAt ≤ 3 ∧ horizDist b.position ≤ R) ∧
      (updateBullets R now delta bs).length ≤ 20 ∧
      (∃ evicted, evicted ++ updateBullets R now delta bs
          = survivingBullets R now delta bs ∧
        ∀ e ∈ evicted, ∀ k ∈ updateBullets R now delta bs,
          e.createdAt ≤ k.createdAt) := by
  have hsub : ∀ b ∈ updateBullets R now delta bs, b ∈ survivingBullets R now delta bs := by
    intro b hb
    simp only [updateBullets] at hb
    split_ifs at hb with h
    · exact List.mem_of_mem_drop hb
    · exact hb
  refine ⟨?_, ?_, ?_⟩
  · intro b hb
    have hmem := hsub b hb
    simp only [survivingBullets, if_pos hR] at hmem
    rw [List.mem_filter] at hmem
    obtain ⟨hm1, hage⟩ := hmem
    rw [List.mem_filter] at hm1
    obtain ⟨-, hbound⟩ := hm1
    constructor
    · exact le_of_not_lt (of_decide_eq_true hage)
    · exact le_of_not_lt (of_decide_eq_true hbound)
  · simp only [updateBullets]
    split_ifs with h
    · rw [List.length_drop]
      omega
    · exact le_of_not_lt h
  · simp only [updateBullets]
    split_ifs with h
    · refine ⟨(survivingBullets R now delta bs).take
        ((survivingBullets R now delta bs).length - 20),
        List.take_append_drop _ _, ?_⟩
      have hp : (survivingBullets R now delta bs).Pairwise
          (fun a b => a.createdAt ≤ b.createdAt) := by
        simp only [survivingBullets, if_pos hR]
        apply List.Pairwise.filter
        apply List.Pairwise.filter
        rw [List.pairwise_map]
        exact hsorted
      have hp2 : ((survivingBullets R now delta bs).take
            ((survivingBullets R now delta bs).length - 20) ++
          (survivingBullets R now delta bs).drop
            ((survivingBullets R now delta bs).length - 20)).Pairwise
          (fun a b => a.createdAt ≤ b.createdAt) := by
        rw [List.take_append_drop]; exact hp
      have hsplit := (List.pairwise_append.mp hp2).2.2
      intro e he k hk
      exact hsplit e he k hk
    · exact ⟨[], by simp, by intro e he k hk; simp at he⟩

/-- Concrete bullet for the C8 witness. -/
noncomputable def sampleBullet : Bullet := ⟨⟨0, 10, 0⟩, ⟨0, 0, 80⟩, 0⟩

/-- C8 witness: the invariants evaluated on a one-bullet list. -/
theorem c8_bullet_list_invariants_witness :
    (845 : ℝ) ≠ 0 ∧
      [sampleBullet].Pairwise (fun a b => a.createdAt ≤ b.createdAt) ∧
      ((∀ b ∈ updateBullets 845 1 0.016 [sampleBullet],
          (1 : ℝ) - b.createdAt ≤ 3 ∧ horizDist b.position ≤ 845) ∧
        (updateBullets 845 1 0.016 [sampleBullet]).length ≤ 20 ∧
        (∃ evicted, evicted ++ updateBullets 845 1 0.016 [sampleBullet]
            = survivingBullets 845 1 0.016 [sampleBullet] ∧
          ∀ e ∈ evicted, ∀ k ∈ updateBullets 845 1 0.016 [sampleBullet],
            e.createdAt ≤ k.createdAt)) :=
  ⟨by norm_num, List.pairwise_singleton _ _,
   c8_bullet_list_invariants 845 1 0.016 [sampleBullet] (by norm_num)
     (List.pairwise_singleton _ _)⟩

end WPF

namespace WPFB

open WPF

/-
Embedding of the superseded Game variant's boundary enforcement,
src/backup/src/components/EnemyPlane.js (Game.checkWorldBounds lines
1884-1925 and Game.updateBoundaryEffects lines 2057-2175).  Only the
motion-relevant player fields are modelled; warning sounds and DOM
elements are collaborator effects represented by the
`boundaryWarningActive` flag.
-/

/-- Player fields the boundary enforcement reads and writes
(the Player class of this variant is not in the repository; `applyForce`
adds the force to the acceleration as in src/src/components/Player.js). -/
structure BPlayer where
  position : Vec3
  velocity : Vec3
  acceleration : Vec3
  meshPosition : Vec3

/-- Player branch of `Game.checkWorldBounds` (lines 1895-1921): beyond the
world radius the player is pushed 5% of the radius toward the centre, and
an outward-moving velocity is reflected inward at 80% magnitude. -/
noncomputable def checkWorldBoundsPlayer (R : ℝ) (p : BPlayer) : BPlayer :=
  let d := horizDist p.position
  if d > R then
    let dirX := -p.position.x / d
    let dirZ := -p.position.z / d
    let pushbackDistance := 0.05 * R
    let pos : Vec3 := ⟨p.position.x + dirX * pushbackDistance, p.position.y,
                       p.position.z + dirZ * pushbackDistance⟩
    let dotProduct := p.velocity.x * -dirX + p.velocity.z * -dirZ
    let v := if dotProduct > 0 then
        (⟨dirX * lenV p.velocity * 0.8, p.velocity.y,
          dirZ * lenV p.velocity * 0.8⟩ : Vec3)
      else p.velocity
    { p with position := pos, velocity := v, meshPosition := pos }
  else p

end WPFB

namespace WPFB

open WPF

/-
Embedding of the superseded Game variant's enemy/tick loop,
src/backup/src/components/EnemyPlane.js: the EnemyPlane class
(lines 3-210), Game.updateEnemies / handleEnemyDestruction /
checkBulletHits (lines 1131-1249), Game.releaseBirds (lines 1498-1534),
createNewEnemy (lines 1368-1395) and Game.update (lines 1016-1075).
Bird objects are modelled by their count (`birdsCount`), which is all the
gameplay state reads (the population headroom); explosion effects,
explosion sounds, replacement spawns and victory screens are recorded in
monotone ledgers (`explosionsCreated`, `enemiesSpawned`, `victoryShown`).
-/

/-- State of one backup-variant enemy plane. -/
structure BEnemy where
  position : Vec3
  velocity : Vec3
  rotation : Euler
  health : ℝ
  speed : ℝ
  turnRate : ℝ
  changeDirectionTime : ℝ
  lastDirectionChange : ℝ
  targetDirection : Vec3
  maxDistanceFromRunway : ℝ
  meshPosition : Vec3
  meshRotation : Euler
  propellerAngle : ℝ

/-- Wall clock and random draws consumed by one backup `EnemyPlane.update`. -/
structure BEOracleUpd where
  now : ℝ
  cdtRand : ℝ
  r1 : ℝ
  r2 : ℝ
  r3 : ℝ

/-- Backup `EnemyPlane.update` (lines 111-185): periodic re-targeting
(return to the runway beyond 80% of `maxDistanceFromRunway`, else a random
direction with altitude bias), lerp-based turning, orientation from
atan2/asin, forward movement and the minimum-altitude clamp. -/
noncomputable def benemyUpdate (delta : ℝ) (o : BEOracleUpd) (e : BEnemy) : BEnemy :=
  let e1 := if o.now - e.lastDirectionChange > e.changeDirectionTime then
      let e0 := { e with lastDirectionChange := o.now,
                         changeDirectionTime := 5 + o.cdtRand * 3 }
      let dR := horizDist e0.position
      if dR > e0.maxDistanceFromRunway * 0.8 then
        let back : Vec3 :=
          ⟨-e0.position.x / dR, (30 - e0.position.y) / 100, -e0.position.z / dR⟩
        { e0 with targetDirection := normalizeV back }
      else
        let nd := normalizeV ⟨o.r1 - 0.5, (o.r2 - 0.5) * 0.1, o.r3 - 0.5⟩
        if e0.position.y < 20 then
          { e0 with targetDirection := { nd with y := |nd.y| * 0.5 } }
        else if e0.position.y > 60 then
          { e0 with targetDirection := { nd with y := -|nd.y| * 0.5 } }
        else { e0 with targetDirection := nd }
    else e
  let cur := applyEuler e1.rotation ⟨0, 0, 1⟩
  let cur2 := lerpV cur e1.targetDirection (e1.turnRate * delta)
  let rot : Euler := ⟨-Real.arcsin cur2.y, atan2 cur2.x cur2.z, e1.rotation.z⟩
  let v : Vec3 := ⟨cur2.x * e1.speed, cur2.y * e1.speed, cur2.z * e1.speed⟩
  let pos2 : Vec3 := ⟨e1.position.x + v.x * delta, e1.position.y + v.y * delta,
    e1.position.z + v.z * delta⟩
  let e2 := { e1 with
    rotation := rot,
    velocity := v,
    position := pos2 }
  let e3 := if e2.position.y < 15 then
      { e2 with
        position := { e2.position with y := 15 },
        targetDirection := { e2.targetDirection with y := |e2.targetDirection.y| } }
    else e2
  { e3 with
    meshPosition := e3.position,
    meshRotation := e3.rotation,
    propellerAngle := e3.propellerAngle + delta * 8 }

/-- Backup `EnemyPlane.damage` (lines 187-210): subtract health.  The
white flash touches only mesh materials and is reverted by an async
timeout; it does not affect simulation state. -/
def bdamage (amount : ℝ) (e : BEnemy) : BEnemy :=
  { e with health := e.health - amount }

/-- Squared bullet-to-enemy distance (`Game.checkBulletHits`
lines 1224-1228). -/
def distSqB (b : Bullet) (pos : Vec3) : ℝ :=
  (b.position.x - pos.x) ^ 2 + (b.position.y - pos.y) ^ 2 + (b.position.z - pos.z) ^ 2

/-- `Game.checkBulletHits` bullet loop (lines 1218-1248), iterating from
the last bullet down: each bullet within squared radius 64 of the enemy is
consumed and deals 25 damage; when health drops to 0 the loop reports
destruction and breaks, leaving the earlier bullets untouched.  Returns
the damaged enemy, the remaining bullet list, and the destroyed flag. -/
noncomputable def checkBulletHits : BEnemy → List Bullet → BEnemy × List Bullet × Bool
  | e, [] => (e, [], false)
  | e, b :: rest =>
      let r := checkBulletHits e rest
      if r.2.2 then (r.1, b :: r.2.1, true)
      else if distSqB b r.1.position < 64 then
        let e2 := bdamage 25 r.1
        if e2.health ≤ 0 then (e2, r.2.1, true)
        else (e2, r.2.1, false)
      else (r.1, b :: r.2.1, false)

/-- Random draws consumed by `Game.createNewEnemy` and the backup
`EnemyPlane` constructor. -/
structure SpawnOracle where
  angleRand : ℝ
  distRand : ℝ
  heightRand : ℝ
  speedRand : ℝ
  turnRand : ℝ
  cdtRand : ℝ
  rotRand : ℝ
  td1 : ℝ
  td2 : ℝ
  td3 : ℝ

/-- `Game.createNewEnemy` (lines 1368-1395) composed with the backup
`EnemyPlane` constructor (lines 4-29): polar spawn position 50-150 units
from the runway at height 30-100, pulled to 50% of the world radius if it
somehow lands beyond 90% of it.  The random mesh colour is render-only. -/
noncomputable def newEnemy (R : ℝ) (so : SpawnOracle) : BEnemy :=
  let angle := so.angleRand * (Real.pi * 2)
  let distance := 50 + so.distRand * 100
  let x := Real.sin angle * distance
  let z := Real.cos angle * distance
  let y := 30 + so.heightRand * 70
  let pos0 : Vec3 := ⟨x, y, z⟩
  let pos := if Real.sqrt (x * x + z * z) > R * 0.9 then
      let dirC := normalizeV ⟨-x, 0, -z⟩
      (⟨dirC.x * (R * 0.5), y, dirC.z * (R * 0.5)⟩ : Vec3)
    else pos0
  { position := pos
    velocity := ⟨0, 0, 0⟩
    rotation := ⟨0, so.rotRand * (Real.pi * 2), 0⟩
    health := 100
    speed := 8 + so.speedRand * 4
    turnRate := 0.15 + so.turnRand * 0.15
    changeDirectionTime := 5 + so.cdtRand * 3
    lastDirectionChange := 0
    targetDirection := normalizeV ⟨so.td1 - 0.5, (so.td2 - 0.5) * 0.1, so.td3 - 0.5⟩
    maxDistanceFromRunway := 200
    meshPosition := pos
    meshRotation := ⟨0, so.rotRand * (Real.pi * 2), 0⟩
    propellerAngle := 0 }

/-- Random draws consumed while processing one enemy in
`Game.updateEnemies`: its own update draws, the bird-count draw of
`handleEnemyDestruction`, and the spawn draws of its replacement. -/
structure BEOracle where
  upd : BEOracleUpd
  birdRand : ℝ
  spawn : SpawnOracle

/-- Accumulator for the `updateEnemies` loop: processed survivors (in
original order), replacement spawns (in processing order), the shared
bullet list, and the bird/ledger fields the loop mutates. -/
structure ProcAcc where
  built : List BEnemy
  spawned : List BEnemy
  bullets : List Bullet
  birdsCount : ℕ
  maxBirds : ℕ
  rescuedBirds : ℕ
  explosionsCreated : ℕ
  enemiesSpawned : ℕ

/-- `Game.handleEnemyDestruction` (lines 1177-1205) with the
`releaseBirds` call (lines 1498-1534): one explosion effect, 2-4 birds
released subject to the remaining headroom under `maxBirds` (the rescued
counter is incremented by the released count), the enemy removed, and one
replacement enemy created. -/
noncomputable def handleEnemyDestruction (R : ℝ) (oe : BEOracle) (acc : ProcAcc) : ProcAcc :=
  let birdCount := min 4 ((⌊oe.birdRand * 3⌋).toNat + 2)
  let availableBirdSlots := acc.maxBirds - acc.birdsCount
  let birdsToRelease := min birdCount availableBirdSlots
  { acc with
    explosionsCreated := acc.explosionsCreated + 1,
    rescuedBirds := acc.rescuedBirds + birdsToRelease,
    birdsCount := acc.birdsCount + birdsToRelease,
    spawned := acc.spawned ++ [newEnemy R oe.spawn],
    enemiesSpawned := acc.enemiesSpawned + 1 }

/-- Body of the `Game.updateEnemies` loop (lines 1133-1168) for one enemy:
update the enemy (`Game.checkWorldBounds` is a no-op for enemies and the
mesh sync is inside the update), destroy it if its health is already gone,
otherwise run the bullet-hit loop and destroy it if that kills it. -/
noncomputable def processEnemy (R delta : ℝ) : BEnemy × BEOracle → ProcAcc → ProcAcc :=
  fun pe acc =>
    let e1 := benemyUpdate delta pe.2.upd pe.1
    if e1.health ≤ 0 then handleEnemyDestruction R pe.2 acc
    else
      let r := checkBulletHits e1 acc.bullets
      if r.2.2 then handleEnemyDestruction R pe.2 { acc with bullets := r.2.1 }
      else { acc with built := r.1 :: acc.built, bullets := r.2.1 }

/-- Replacement spawns of the `while (enemies.length < maxEnemies)`
top-up loop at the end of `Game.updateEnemies` (lines 1172-1174). -/
noncomputable def topUpSpawns (R : ℝ) (so : ℕ → SpawnOracle) (need : ℕ) : List BEnemy :=
  (List.range need).map (fun i => newEnemy R (so i))

/-- Backup game state: entity collections, population parameters, and the
monotone event ledgers. -/
structure BGame where
  enemies : List BEnemy
  bullets : List Bullet
  birdsCount : ℕ
  maxBirds : ℕ
  maxEnemies : ℕ
  rescuedBirds : ℕ
  explosionsCreated : ℕ
  enemiesSpawned : ℕ
  victoryShown : ℕ
  gameOver : Bool
  paused : Bool

/-- `Game.updateEnemies` (lines 1131-1175): the downward index loop over
the enemy array (modelled as a right fold, so the highest index is
processed first, matching removal by splice at the current index), then
the population top-up.  Per-enemy random draws are indexed by array
position. -/
noncomputable def updateEnemies (R delta : ℝ) (os : ℕ → BEOracle)
    (so : ℕ → SpawnOracle) (g : BGame) : BGame :=
  let pairs := (g.enemies.enum).map (fun ie => (ie.2, os ie.1))
  let acc0 : ProcAcc := ⟨[], [], g.bullets, g.birdsCount, g.maxBirds, g.rescuedBirds,
    g.explosionsCreated, g.enemiesSpawned⟩
  let acc := List.foldr (processEnemy R delta) acc0 pairs
  let total := acc.built ++ acc.spawned
  let need := g.maxEnemies - total.length
  { g with
    enemies := total ++ topUpSpawns R so need,
    bullets := acc.bullets,
    birdsCount := acc.birdsCount,
    rescuedBirds := acc.rescuedBirds,
    explosionsCreated := acc.explosionsCreated,
    enemiesSpawned := acc.enemiesSpawned + need }

/-- Per-tick oracle for `Game.update`: whether a fatal terrain collision
occurs (sets game over, the tick continues), whether the player falls
below −50 (sets game over and aborts the tick), the per-enemy draws, and
how many birds the `updateBirds` pass removes (age/distance culling and
the soft cap). -/
structure TickOracle where
  terrainFatal : Bool
  fallFatal : Bool
  enemyOs : ℕ → BEOracle
  spawnOs : ℕ → SpawnOracle
  birdsRemoved : ℕ

/-- `Game.update` (lines 1016-1075): effects always update (ledgers are
unaffected); a paused or finished game changes nothing; the victory check
fires first (rescued ≥ 100 sets game over and shows the victory screen);
then the player phase (camera, bounds, terrain, fall check), enemies,
birds, clouds, boundary effects and radar.  Player kinematics, clouds,
boundary effects and radar do not touch the fields modelled here. -/
noncomputable def gameTick (R delta : ℝ) (o : TickOracle) (g : BGame) : BGame :=
  if g.paused || g.gameOver then g
  else if 100 ≤ g.rescuedBirds then
    { g with gameOver := true, victoryShown := g.victoryShown + 1 }
  else
    let g0 := if o.terrainFatal then
        { g with gameOver := true, explosionsCreated := g.explosionsCreated + 1 }
      else g
    if o.fallFatal then
      { g0 with gameOver := true, explosionsCreated := g0.explosionsCreated + 1 }
    else
      let g1 := updateEnemies R delta o.enemyOs o.spawnOs g0
      { g1 with birdsCount := g1.birdsCount - o.birdsRemoved }

/-- Iterated game ticks. -/
noncomputable def runTicks (R delta : ℝ) (os : List TickOracle) (g : BGame) : BGame :=
  os.foldl (fun s o => gameTick R delta o s) g

/-- Number of bullets within hit range (squared distance < 8² = 64) of a
given position. -/
noncomputable def hitCount (pos : Vec3) (bs : List Bullet) : ℕ :=
  (bs.filter (fun b => distSqB b pos < 64)).length

end WPFB

namespace WPFB

open WPF

theorem processEnemy_rescued_mono (R delta : ℝ) (pe : BEnemy × BEOracle)
    (acc : ProcAcc) : acc.rescuedBirds ≤ (processEnemy R delta pe acc).rescuedBirds := by
  simp only [processEnemy, handleEnemyDestruction]
  split_ifs <;> simp

theorem foldProcess_rescued_mono (R delta : ℝ) (l : List (BEnemy × BEOracle))
    (acc : ProcAcc) :
    acc.rescuedBirds ≤ (List.foldr (processEnemy R delta) acc l).rescuedBirds := by
  induction l with
  | nil => exact le_rfl
  | cons p l ih =>
      exact le_trans ih (processEnemy_rescued_mono R delta p _)

theorem updateEnemies_rescued_mono (R delta : ℝ) (os : ℕ → BEOracle)
    (so : ℕ → SpawnOracle) (g : BGame) :
    g.rescuedBirds ≤ (updateEnemies R delta os so g).rescuedBirds := by
  simp only [updateEnemies]
  exact foldProcess_rescued_mono R delta
    ((g.enemies.enum).map (fun ie => (ie.2, os ie.1)))
    ⟨[], [], g.bullets, g.birdsCount, g.maxBirds, g.rescuedBirds,
      g.explosionsCreated, g.enemiesSpawned⟩

theorem updateEnemies_victoryShown (R delta : ℝ) (os : ℕ → BEOracle)
    (so : ℕ → SpawnOracle) (g : BGame) :
    (updateEnemies R delta os so g).victoryShown = g.victoryShown := rfl

theorem updateEnemies_gameOver (R delta : ℝ) (os : ℕ → BEOracle)
    (so : ℕ → SpawnOracle) (g : BGame) :
    (updateEnemies R delta os so g).gameOver = g.gameOver := rfl

/-- Rescued birds never decrease across one tick. -/
theorem gameTick_rescued_mono (R delta : ℝ) (o : TickOracle) (g : BGame) :
    g.rescuedBirds ≤ (gameTick R delta o g).rescuedBirds := by
  simp only [gameTick]
  split_ifs
  all_goals
    first
      | exact le_rfl
      | exact updateEnemies_rescued_mono R delta o.enemyOs o.spawnOs g
      | exact updateEnemies_rescued_mono R delta o.enemyOs o.spawnOs
          ⟨g.enemies, g.bullets, g.birdsCount, g.maxBirds, g.maxEnemies,
            g.rescuedBirds, g.explosionsCreated + 1, g.enemiesSpawned,
            g.victoryShown, true, g.paused⟩

/-- A finished game is frozen: one tick changes nothing. -/
theorem gameTick_gameOver_frozen (R delta : ℝ) (o : TickOracle) (g : BGame)
    (h : g.gameOver = true) : gameTick R delta o g = g := by
  simp only [gameTick, h]
  rw [if_pos (by simp)]

/-- The victory screen is shown exactly on the ticks that begin unpaused,
not yet game over, and with at least 100 rescued birds. -/
theorem gameTick_victories (R delta : ℝ) (o : TickOracle) (g : BGame) :
    (gameTick R delta o g).victoryShown = g.victoryShown +
      (if g.paused = false ∧ g.gameOver = false ∧ 100 ≤ g.rescuedBirds then 1 else 0) := by
  cases hp : g.paused <;> cases hg : g.gameOver <;>
    simp only [gameTick, hp, hg, Bool.or_self, Bool.or_true, Bool.true_or, Bool.false_or,
      if_true, if_false] <;>
    split_ifs <;>
    simp_all [updateEnemies_victoryShown]

/-- A victory firing also ends the game. -/
theorem gameTick_fired_gameOver (R delta : ℝ) (o : TickOracle) (g : BGame)
    (hp : g.paused = false) (hg : g.gameOver = false) (hr : 100 ≤ g.rescuedBirds) :
    (gameTick R delta o g).gameOver = true := by
  simp only [gameTick, hp, hg, Bool.or_self]
  rw [if_neg (by simp), if_pos hr]

/-- A finished game stays frozen over any run. -/
theorem runTicks_gameOver_frozen (R delta : ℝ) (os : List TickOracle) (g : BGame)
    (h : g.gameOver = true) : runTicks R delta os g = g := by
  induction os generalizing g with
  | nil => rfl
  | cons o os ih =>
      show runTicks R delta os (gameTick R delta o g) = g
      rw [gameTick_gameOver_frozen R delta o g h]
      exact ih g h

/-- Over any run the victory screen is shown at most once. -/
theorem runTicks_victories_le (R delta : ℝ) (os : List TickOracle) (g : BGame) :
    (runTicks R delta os g).victoryShown ≤ g.victoryShown + 1 := by
  induction os generalizing g with
  | nil => exact Nat.le_succ _
  | cons o os ih =>
      show (runTicks R delta os (gameTick R delta o g)).victoryShown ≤ g.victoryShown + 1
      by_cases hfire : g.paused = false ∧ g.gameOver = false ∧ 100 ≤ g.rescuedBirds
      · have hgo : (gameTick R delta o g).gameOver = true :=
          gameTick_fired_gameOver R delta o g hfire.1 hfire.2.1 hfire.2.2
        rw [runTicks_gameOver_frozen R delta os _ hgo]
        rw [gameTick_victories, if_pos hfire]
      · have := ih (gameTick R delta o g)
        rw [gameTick_victories, if_neg hfire] at this
        simpa using this

/-- Rescued birds never decrease across a run. -/
theorem runTicks_rescued_mono (R delta : ℝ) (os : List TickOracle) (g : BGame) :
    g.rescuedBirds ≤ (runTicks R delta os g).rescuedBirds := by
  induction os generalizing g with
  | nil => exact le_rfl
  | cons o os ih =>
      exact le_trans (gameTick_rescued_mono R delta o g) (ih (gameTick R delta o g))

/-- C3: the rescued-bird counter is monotonically non-decreasing across
ticks; the victory transition fires exactly on the first tick that starts
unpaused, not game over, and with the counter at 100 or more — it sets
`gameOver`, after which every later tick leaves the game unchanged, so
over any run the victory screen is shown at most once regardless of
further increments. -/
theorem c3_victory_exactly_once (R delta : ℝ) :
    (∀ (o : TickOracle) (g : BGame),
        g.rescuedBirds ≤ (gameTick R delta o g).rescuedBirds) ∧
      (∀ (os : List TickOracle) (g : BGame),
        g.rescuedBirds ≤ (runTicks R delta os g).rescuedBirds) ∧
      (∀ (o : TickOracle) (g : BGame),
        (gameTick R delta o g).victoryShown = g.victoryShown +
          (if g.paused = false ∧ g.gameOver = false ∧ 100 ≤ g.rescuedBirds
            then 1 else 0)) ∧
      (∀ (o : TickOracle) (g : BGame), g.paused = false → g.gameOver = false →
        100 ≤ g.rescuedBirds → (gameTick R delta o g).gameOver = true) ∧
      (∀ (os : List TickOracle) (g : BGame), g.gameOver = true →
        runTicks R delta os g = g) ∧
      (∀ (os : List TickOracle) (g : BGame),
        (runTicks R delta os g).victoryShown ≤ g.victoryShown + 1) :=
  ⟨gameTick_rescued_mono R delta, runTicks_rescued_mono R delta,
   gameTick_victories R delta, gameTick_fired_gameOver R delta,
   runTicks_gameOver_frozen R delta, runTicks_victories_le R delta⟩

/-- Concrete spawn draws. -/
noncomputable def zeroSpawnO : SpawnOracle :=
  ⟨0.5, 0.5, 0.5, 0.5, 0.5, 0.5, 0.5, 0.5, 0.5, 0.5⟩

/-- Concrete per-enemy draws. -/
noncomputable def zeroBEO : BEOracle := ⟨⟨0, 0.5, 0.5, 0.5, 0.5⟩, 0.5, zeroSpawnO⟩

/-- Concrete tick oracle: no fatal collision, no bird culled. -/
noncomputable def sampleTickO : TickOracle :=
  ⟨false, false, fun _ => zeroBEO, fun _ => zeroSpawnO, 0⟩

/-- Running game that has just reached 100 rescued birds. -/
noncomputable def victoryGame : BGame := ⟨[], [], 0, 20, 0, 100, 0, 0, 0, false, false⟩

/-- C3 witness: at the state with 100 rescued birds the tick preserves
monotonicity and fires the victory transition. -/
theorem c3_victory_exactly_once_witness :
    victoryGame.rescuedBirds ≤ (gameTick 845 0.016 sampleTickO victoryGame).rescuedBirds ∧
      (victoryGame.paused = false ∧ victoryGame.gameOver = false ∧
        100 ≤ victoryGame.rescuedBirds) ∧
      (gameTick 845 0.016 sampleTickO victoryGame).gameOver = true :=
  ⟨(c3_victory_exactly_once 845 0.016).1 sampleTickO victoryGame,
   ⟨rfl, rfl, by norm_num [victoryGame]⟩,
   (c3_victory_exactly_once 845 0.016).2.2.2.1 sampleTickO victoryGame rfl rfl
     (by norm_num [victoryGame])⟩

end WPFB

namespace WPFB

open WPF

theorem benemyUpdate_health (delta : ℝ) (o : BEOracleUpd) (e : BEnemy) :
    (benemyUpdate delta o e).health = e.health := by
  simp only [benemyUpdate]
  split_ifs <;> rfl

theorem hitCount_cons (pos : Vec3) (b : Bullet) (bs : List Bullet) :
    hitCount pos (b :: bs) = hitCount pos bs + (if distSqB b pos < 64 then 1 else 0) := by
  by_cases h : distSqB b pos < 64 <;> simp [hitCount, List.filter_cons, h]

/-- Induction invariant of the bullet-hit loop: the enemy position is
untouched, destruction is reported exactly when the in-range bullets
suffice to exhaust the health, and otherwise the health drops by exactly
25 per in-range bullet and stays positive. -/
theorem checkBulletHits_spec (e : BEnemy) (h : 0 < e.health) (bs : List Bullet) :
    (checkBulletHits e bs).1.position = e.position ∧
      ((checkBulletHits e bs).2.2 = true ↔
        e.health ≤ 25 * (hitCount e.position bs : ℝ)) ∧
      ((checkBulletHits e bs).2.2 = false →
        (checkBulletHits e bs).1.health
            = e.health - 25 * (hitCount e.position bs : ℝ) ∧
          0 < (checkBulletHits e bs).1.health) := by
  induction bs with
  | nil =>
      refine ⟨rfl, ?_, ?_⟩
      · simp only [checkBulletHits, hitCount, List.filter_nil, List.length_nil,
          Nat.cast_zero, mul_zero]
        constructor
        · intro hc; exact absurd hc (by simp)
        · intro hc; linarith
      · intro _
        simp only [checkBulletHits, hitCount, List.filter_nil, List.length_nil,
          Nat.cast_zero, mul_zero]
        exact ⟨by ring, h⟩
  | cons b rest ih =>
      obtain ⟨ihp, ihiff, ihr⟩ := ih
      simp only [checkBulletHits]
      by_cases hd : (checkBulletHits e rest).2.2 = true
      · rw [if_pos hd]
        refine ⟨ihp, ?_, ?_⟩
        · constructor
          · intro _
            have h1 := ihiff.mp hd
            have h2 : (hitCount e.position rest : ℝ)
                ≤ (hitCount e.position (b :: rest) : ℝ) := by
              rw [hitCount_cons]
              push_cast
              split_ifs <;> linarith
            linarith
          · intro _; rfl
        · intro hf; exact Bool.noConfusion hf
      · have hdf : (checkBulletHits e rest).2.2 = false := by
          cases hcb : (checkBulletHits e rest).2.2
          · rfl
          · exact absurd hcb hd
        rw [if_neg hd]
        obtain ⟨hh, hpos⟩ := ihr hdf
        by_cases hin : distSqB b (checkBulletHits e rest).1.position < 64
        · rw [if_pos hin]
          have hin' : distSqB b e.position < 64 := by rwa [ihp] at hin
          have hcc : (hitCount e.position (b :: rest) : ℝ)
              = (hitCount e.position rest : ℝ) + 1 := by
            rw [hitCount_cons, if_pos hin']
            push_cast
            ring
          by_cases hk : (bdamage 25 (checkBulletHits e rest).1).health ≤ 0
          · rw [if_pos hk]
            refine ⟨ihp, ?_, ?_⟩
            · constructor
              · intro _
                have hk' : (checkBulletHits e rest).1.health - 25 ≤ 0 := hk
                rw [hh] at hk'
                rw [hcc]
                linarith
              · intro _; rfl
            · intro hf; exact Bool.noConfusion hf
          · rw [if_neg hk]
            push_neg at hk
            have hk' : 0 < (checkBulletHits e rest).1.health - 25 := hk
            refine ⟨ihp, ?_, ?_⟩
            · constructor
              · intro hf; exact Bool.noConfusion hf
              · intro hP
                exfalso
                rw [hcc] at hP
                rw [hh] at hk'
                linarith
            · intro _
              constructor
              · show (checkBulletHits e rest).1.health - 25 = _
                rw [hh, hcc]
                ring
              · exact hk'
        · rw [if_neg hin]
          have hin' : ¬ distSqB b e.position < 64 := by rwa [ihp] at hin
          have hcc : (hitCount e.position (b :: rest) : ℝ)
              = (hitCount e.position rest : ℝ) := by
            rw [hitCount_cons, if_neg hin']
            push_cast
            ring
          refine ⟨ihp, ?_, ?_⟩
          · constructor
            · intro hf; exact Bool.noConfusion hf
            · intro hP
              exfalso
              rw [hcc] at hP
              exact hd (ihiff.mpr hP)
          · intro _
            rw [hcc]
            exact ⟨hh, hpos⟩

/-- One loop body of `updateEnemies` on a surviving-after-update enemy:
destruction (with its single explosion and single replacement) happens
exactly when the in-range bullets cover the health; otherwise the ledgers
are untouched and the enemy is kept with the bullet damage applied. -/
theorem processEnemy_spec (R delta : ℝ) (pe : BEnemy × BEOracle) (acc : ProcAcc)
    (h : 0 < (benemyUpdate delta pe.2.upd pe.1).health) :
    ((benemyUpdate delta pe.2.upd pe.1).health
        ≤ 25 * (hitCount (benemyUpdate delta pe.2.upd pe.1).position acc.bullets : ℝ) →
      (processEnemy R delta pe acc).explosionsCreated = acc.explosionsCreated + 1 ∧
      (processEnemy R delta pe acc).enemiesSpawned = acc.enemiesSpawned + 1 ∧
      (processEnemy R delta pe acc).built = acc.built) ∧
    (25 * (hitCount (benemyUpdate delta pe.2.upd pe.1).position acc.bullets : ℝ)
        < (benemyUpdate delta pe.2.upd pe.1).health →
      (processEnemy R delta pe acc).explosionsCreated = acc.explosionsCreated ∧
      (processEnemy R delta pe acc).enemiesSpawned = acc.enemiesSpawned ∧
      ∃ kept, (processEnemy R delta pe acc).built = kept :: acc.built ∧
        kept.health = (benemyUpdate delta pe.2.upd pe.1).health
          - 25 * (hitCount (benemyUpdate delta pe.2.upd pe.1).position acc.bullets : ℝ) ∧
        0 < kept.health) := by
  obtain ⟨hp, hiff, hrest⟩ :=
    checkBulletHits_spec (benemyUpdate delta pe.2.upd pe.1) h acc.bullets
  simp only [processEnemy]
  rw [if_neg (not_le.mpr h)]
  by_cases hd : (checkBulletHits (benemyUpdate delta pe.2.upd pe.1) acc.bullets).2.2 = true
  · rw [if_pos hd]
    have hcond := hiff.mp hd
    constructor
    · intro _
      exact ⟨rfl, rfl, rfl⟩
    · intro hlt
      exfalso
      linarith
  · have hdf : (checkBulletHits (benemyUpdate delta pe.2.upd pe.1) acc.bullets).2.2 = false := by
      cases hcb : (checkBulletHits (benemyUpdate delta pe.2.upd pe.1) acc.bullets).2.2
      · rfl
      · exact absurd hcb hd
    rw [if_neg hd]
    obtain ⟨hh, hpos⟩ := hrest hdf
    constructor
    · intro hle
      exact absurd (hiff.mpr hle) hd
    · intro _
      exact ⟨rfl, rfl,
        (checkBulletHits (benemyUpdate delta pe.2.upd pe.1) acc.bullets).1, rfl, hh, hpos⟩

theorem processEnemy_counts (R delta : ℝ) (pe : BEnemy × BEOracle) (acc : ProcAcc) :
    (processEnemy R delta pe acc).built.length + (processEnemy R delta pe acc).spawned.length
        = acc.built.length + acc.spawned.length + 1 ∧
      (processEnemy R delta pe acc).explosionsCreated + acc.enemiesSpawned
        = (processEnemy R delta pe acc).enemiesSpawned + acc.explosionsCreated := by
  simp only [processEnemy, handleEnemyDestruction]
  split_ifs <;> refine ⟨?_, ?_⟩ <;> simp [List.length_append] <;> try omega

theorem foldProcess_counts (R delta : ℝ) (l : List (BEnemy × BEOracle)) (acc : ProcAcc) :
    (List.foldr (processEnemy R delta) acc l).built.length
          + (List.foldr (processEnemy R delta) acc l).spawned.length
        = acc.built.length + acc.spawned.length + l.length ∧
      (List.foldr (processEnemy R delta) acc l).explosionsCreated + acc.enemiesSpawned
        = (List.foldr (processEnemy R delta) acc l).enemiesSpawned + acc.explosionsCreated := by
  induction l with
  | nil => exact ⟨by simp, Nat.add_comm _ _⟩
  | cons p l ih =>
      have hstep := processEnemy_counts R delta p (List.foldr (processEnemy R delta) acc l)
      simp only [List.foldr_cons, List.length_cons]
      exact ⟨by omega, by omega⟩

theorem topUpSpawns_length (R : ℝ) (so : ℕ → SpawnOracle) (n : ℕ) :
    (topUpSpawns R so n).length = n := by
  simp [topUpSpawns]

end WPFB

namespace WPFB

open WPF

/-- C1: over one `updateEnemies` tick starting at the target population,
the enemy count returns to the target and the explosion ledger and the
replacement-spawn ledger advance by the same amount; and for each
processed enemy that survives its own update (`benemyUpdate` never changes
health), destruction is an exactly-once event: when the in-range bullets
deal at least its health in 25-damage hits the loop body creates exactly
one explosion and exactly one replacement and does not keep the enemy,
and otherwise it creates neither and keeps the enemy with exactly 25
damage per in-range bullet. -/
theorem c1_destruction_exactly_once (R delta : ℝ) (os : ℕ → BEOracle)
    (so : ℕ → SpawnOracle) (g : BGame) (hpop : g.enemies.length = g.maxEnemies) :
    ((updateEnemies R delta os so g).enemies.length = g.maxEnemies ∧
      (updateEnemies R delta os so g).explosionsCreated + g.enemiesSpawned
        = (updateEnemies R delta os so g).enemiesSpawned + g.explosionsCreated) ∧
    (∀ (pe : BEnemy × BEOracle) (acc : ProcAcc),
      0 < (benemyUpdate delta pe.2.upd pe.1).health →
      ((benemyUpdate delta pe.2.upd pe.1).health
          ≤ 25 * (hitCount (benemyUpdate delta pe.2.upd pe.1).position acc.bullets : ℝ) →
        (processEnemy R delta pe acc).explosionsCreated = acc.explosionsCreated + 1 ∧
        (processEnemy R delta pe acc).enemiesSpawned = acc.enemiesSpawned + 1 ∧
        (processEnemy R delta pe acc).built = acc.built) ∧
      (25 * (hitCount (benemyUpdate delta pe.2.upd pe.1).position acc.bullets : ℝ)
          < (benemyUpdate delta pe.2.upd pe.1).health →
        (processEnemy R delta pe acc).explosionsCreated = acc.explosionsCreated ∧
        (processEnemy R delta pe acc).enemiesSpawned = acc.enemiesSpawned ∧
        ∃ kept, (processEnemy R delta pe acc).built = kept :: acc.built ∧
          kept.health = (benemyUpdate delta pe.2.upd pe.1).health
            - 25 * (hitCount (benemyUpdate delta pe.2.upd pe.1).position acc.bullets : ℝ) ∧
          0 < kept.health)) := by
  constructor
  · have hc := foldProcess_counts R delta ((g.enemies.enum).map (fun ie => (ie.2, os ie.1)))
      ⟨[], [], g.bullets, g.birdsCount, g.maxBirds, g.rescuedBirds,
        g.explosionsCreated, g.enemiesSpawned⟩
    have hl : ((g.enemies.enum).map (fun ie => (ie.2, os ie.1))).length = g.maxEnemies := by
      simp [hpop]
    simp only [List.length_nil, Nat.zero_add, hl] at hc
    simp only [updateEnemies]
    constructor
    · rw [List.length_append, topUpSpawns_length, List.length_append]
      omega
    · rw [List.length_append]
      omega
  · intro pe acc h
    exact processEnemy_spec R delta pe acc h

/-- Concrete backup enemy at full health. -/
noncomputable def sampleBEnemy : BEnemy :=
  ⟨⟨0, 50, 0⟩, ⟨0, 0, 0⟩, ⟨0, 0, 0⟩, 100, 10, 0.2, 5, 0, ⟨0, 0, 1⟩, 200,
    ⟨0, 50, 0⟩, ⟨0, 0, 0⟩, 0⟩

/-- Concrete game at its target population of one enemy. -/
noncomputable def oneEnemyGame : BGame :=
  ⟨[sampleBEnemy], [], 0, 20, 1, 0, 0, 0, 0, false, false⟩

/-- C1 witness: the one-enemy game at its target population keeps its
population across a tick. -/
theorem c1_destruction_exactly_once_witness :
    oneEnemyGame.enemies.length = oneEnemyGame.maxEnemies ∧
      (updateEnemies 845 0.016 (fun _ => zeroBEO) (fun _ => zeroSpawnO)
          oneEnemyGame).enemies.length = oneEnemyGame.maxEnemies :=
  ⟨rfl, (c1_destruction_exactly_once 845 0.016 (fun _ => zeroBEO) (fun _ => zeroSpawnO)
      oneEnemyGame rfl).1.1⟩

end WPFB
